import Mathlib

/-!
Verification of the GoAgent conversational-agent runtime.

This file shallowly embeds the Go source of the repository: the canonical
message model (package general), the history-truncation algorithm and the
conversation driver (package ConversationManager), the registered-function
calling layer, and the OpenAI and DeepSeek request converters.  Go machine
integers are modelled by Int (no overflow occurs at the magnitudes the
program manipulates), Go float64 by Rat where a numeric comparison matters,
Go strings by String, Go slices by List, and Go maps keyed by function name
by association lists.  Fallible Go functions returning (T, error) are
modelled by Except String T.
-/

namespace GoAgent

/-- Canonical image content (general.ImageURL). -/
structure ImageURL where
  url : String
  detail : String := ""
deriving DecidableEq, Repr

/-- Canonical function call payload (general.FunctionCall).  Go stores the
arguments as a raw json.RawMessage byte slice, possibly nil; we model the
bytes as an optional String. -/
structure FunctionCall where
  name : String
  arguments : Option String := none
deriving DecidableEq, Repr

/-- Canonical tool call (general.ToolCall). -/
structure ToolCall where
  id : String
  type : String := "function"
  function : FunctionCall
deriving DecidableEq, Repr

/-- Canonical content part (general.Content).  The type tag is the Go string
tag; text, image and tool-result payloads are as in the source. -/
structure Content where
  type : String
  text : String := ""
  imageURL : Option ImageURL := none
  toolCall : Option ToolCall := none
  toolID : String := ""
deriving DecidableEq, Repr

/-- Canonical message (general.Message).  Roles are the Go string constants
"system", "user", "assistant", "tool". -/
structure Message where
  role : String
  content : List Content := []
  name : String := ""
  toolCalls : List ToolCall := []
deriving DecidableEq, Repr

/-- Token usage (general.Usage). -/
structure Usage where
  promptTokens : Int := 0
  completionTokens : Int := 0
  totalTokens : Int := 0
deriving DecidableEq, Repr

/-- One response choice (general.Choice); the driver reads only the message. -/
structure Choice where
  index : Int := 0
  message : Message
  finishReason : String := ""
deriving DecidableEq, Repr

/-- Canonical chat response (general.ChatResponse), restricted to the fields
the conversation driver reads. -/
structure ChatResponse where
  choices : List Choice
  usage : Usage := {}
deriving DecidableEq, Repr

/-! ## Token estimation (ConversationManager, history file)

The Go methods below ignore every receiver field, so they are modelled as
plain functions. -/

/-- CalculateTokens: count one token per rune (both branches of the Go
if/else add 1) and divide by two. -/
def CalculateTokens (text : String) : Nat :=
  if text = "" then 0
  else (text.data.foldl (fun tokens char => if char.toNat > 127 then tokens + 1 else tokens + 1) 0) / 2

/-- calculateMessageTokens: sum the per-part text estimate and add 50 tokens
per tool call carried by the message. -/
def calculateMessageTokens (msg : Message) : Nat :=
  (msg.content.foldl (fun tokens content => tokens + CalculateTokens content.text) 0)
    + msg.toolCalls.length * 50

/-- CalculateUnitTokens: sum over a slice of messages. -/
def CalculateUnitTokens (messages : List Message) : Nat :=
  messages.foldl (fun totalTokens msg => totalTokens + calculateMessageTokens msg) 0

/-- hasToolCalls: the message carries at least one tool call. -/
def hasToolCalls (msg : Message) : Bool :=
  msg.toolCalls.length > 0

/-! ## Safe-unit identification -/

/-- SafeUnit: one atomic slice of history the truncator may keep or drop. -/
structure SafeUnit where
  startIndex : Nat
  endIndex : Nat
  tokenCount : Nat
  unitType : String
deriving DecidableEq, Repr

/-- The loop body of findEndOfToolSequence: starting inside a tool sequence,
advance over tool results and assistant messages that still carry tool calls;
stop on the first assistant message without tool calls (returning its index),
back up by one on any other role, and return the last index when the history
ends.  The Go while-loop is rendered by structural recursion on an explicit
iteration bound (fuel); the wrapper supplies a bound the loop cannot exhaust
(the index grows every iteration), so the exhaustion branch is unreachable
and the recursion stays kernel-computable. -/
def findEndLoop (messages : List Message) : Nat → Nat → Nat
  | 0, _ => messages.length - 1
  | fuel + 1, i =>
    if h : i < messages.length then
      let m := messages.get ⟨i, h⟩
      if m.role = "tool" then findEndLoop messages fuel (i + 1)
      else if m.role = "assistant" then
        if hasToolCalls m then findEndLoop messages fuel (i + 1)
        else i
      else i - 1
    else messages.length - 1

/-- findEndOfToolSequence: scan forward from the message after startIndex. -/
def findEndOfToolSequence (messages : List Message) (startIndex : Nat) : Nat :=
  findEndLoop messages (messages.length - startIndex) (startIndex + 1)

/-- Result of the inner scanning loop of identifySafeUnits: the unit's end
index, whether an assistant message with tool calls was seen (making the unit
a tool sequence), and the index at which the outer loop resumes (the Go
loop's value of i after the inner loop plus the outer increment). -/
structure ScanResult where
  endIndex : Nat
  isToolSeq : Bool
  next : Nat
deriving DecidableEq, Repr

/-- The fuelled inner loop of identifySafeUnits, entered just after a user
message: an assistant message closes the unit (extending through the tool
sequence first when it carries tool calls), a tool message is skipped, any
other role closes the unit one message earlier, and exhaustion closes it at
the last message. -/
def scanUnitLoop (messages : List Message) : Nat → Nat → ScanResult
  | 0, j => ⟨messages.length - 1, false, j + 1⟩
  | fuel + 1, j =>
    if h : j < messages.length then
      let m := messages.get ⟨j, h⟩
      if m.role = "assistant" then
        if hasToolCalls m then
          let k := findEndOfToolSequence messages j
          ⟨k, true, k + 1⟩
        else ⟨j, false, j + 1⟩
      else if m.role = "tool" then scanUnitLoop messages fuel (j + 1)
      else ⟨j - 1, false, j⟩
    else ⟨messages.length - 1, false, j + 1⟩

/-- The inner loop of identifySafeUnits with its iteration bound supplied. -/
def scanUnitEnd (messages : List Message) (j : Nat) : ScanResult :=
  scanUnitLoop messages (messages.length + 1 - j) j

/-- The fuelled outer loop of identifySafeUnits: walk from index i; every
user message opens a unit whose extent and kind the inner scan determines.
The scan resumes the outer walk past the scanned unit, so the index grows
every iteration and an iteration bound of messages.length is never
exhausted. -/
def identifyLoop (messages : List Message) : Nat → Nat → List SafeUnit
  | 0, _ => []
  | fuel + 1, i =>
    if h : i < messages.length then
      if (messages.get ⟨i, h⟩).role = "user" then
        let r := scanUnitEnd messages (i + 1)
        let unit : SafeUnit :=
          { startIndex := i
            endIndex := r.endIndex
            tokenCount := CalculateUnitTokens ((messages.drop i).take (r.endIndex + 1 - i))
            unitType := if r.isToolSeq then "tool_sequence" else "dialog" }
        unit :: identifyLoop messages fuel r.next
      else identifyLoop messages fuel (i + 1)
    else []

/-- identifySafeUnits: identify the safe truncation units of a history. -/
def identifySafeUnits (messages : List Message) : List SafeUnit :=
  if messages.length = 0 then [] else identifyLoop messages messages.length 0

/-- selectUnitsFromEnd's walk over the reversed unit list: admit units while
they fit the remaining budget, stop at the first that does not. -/
def selectRevLoop (maxTokens : Int) (currentTokens : Int) : List SafeUnit → List SafeUnit
  | [] => []
  | unit :: rest =>
    if currentTokens + (unit.tokenCount : Int) ≤ maxTokens then
      unit :: selectRevLoop maxTokens (currentTokens + unit.tokenCount) rest
    else []

/-- selectUnitsFromEnd: select units newest-to-oldest while they fit
maxTokens; the Go loop prepends each admitted unit, so the result is the
admitted suffix in original order. -/
def selectUnitsFromEnd (units : List SafeUnit) (maxTokens : Int) : List SafeUnit :=
  if units = [] then [] else (selectRevLoop maxTokens 0 units.reverse).reverse

/-! ## The conversation manager state and truncation -/

/-- A Go value flowing through the registered-function calling layer.  The
source admits every primitive width and containers; the model keeps the
representative primitives (all Go integer widths collapse to Int) plus the
error interface, which is what the calling layer distinguishes. -/
inductive GoValue where
  | vbool (b : Bool)
  | vint (n : Int)
  | vstr (s : String)
  | verr (e : Option String)
deriving DecidableEq, Repr

/-- The reflected formal-parameter types the model carries. -/
inductive GoType where
  | tbool
  | tint
  | tstr
deriving DecidableEq, Repr

/-- A JSON value as produced by Go's json.Unmarshal into interface
(numbers always decode to float64, modelled exactly by Rat). -/
inductive JVal where
  | jnull
  | jbool (b : Bool)
  | jnum (q : Rat)
  | jstr (s : String)
deriving DecidableEq, Repr

/-- The decoding outcome of a raw tool-call arguments payload, following the
two-stage decode in CallRegisteredFunction: the bytes decode directly to a
JSON object, or to a JSON string whose content decodes to an object
(DeepSeek double encoding), or to a JSON string whose content does not, or
to neither an object nor a string. -/
inductive RawArgs where
  | obj (kvs : List (String × JVal))
  | strObj (kvs : List (String × JVal))
  | strBad
  | bad
deriving DecidableEq, Repr

/-- A registered host function: the Go source keeps three maps
(registeredFuncs, funcSchemas, funcParamNames) keyed by the same name; the
model bundles the callable's reflected parameter names and types with its
behaviour.  The callable returns its Go return values in order. -/
structure RegisteredFunction where
  paramNames : List String
  paramTypes : List GoType
  impl : List GoValue → List GoValue

/-- ConversationManager configuration state.  The history slice is passed
explicitly to the functions that read or replace it, mirroring the Go
mutation of cm.history.  Defaults are those of NewConversationManager. -/
structure ConversationManager where
  systemPrompt : String := ""
  maxFunctionCallingNums : Int := 15
  maxChatNums : Int := 0
  maxTokens : Int := 5000
  temperature : Rat := 7 / 10
  maxHistoryTokens : Int := 100000
  enableTruncation : Bool := true
  registeredFuncs : List (String × RegisteredFunction) := []

/-- The history-token total compared against the threshold: history estimate
plus system-prompt estimate. -/
def totalCurrentTokens (cm : ConversationManager) (messages : List Message) : Int :=
  (CalculateUnitTokens messages : Int) + (CalculateTokens cm.systemPrompt : Int)

/-- The 80% truncation threshold.  Go computes
int(float64(MaxHistoryTokens) * 0.8); the model computes the same value by
exact integer arithmetic truncated toward zero, which agrees with the
float64 computation at the magnitudes the program uses. -/
def truncationThreshold (cm : ConversationManager) : Int :=
  Int.tdiv (cm.maxHistoryTokens * 8) 10

/-- truncateHistory: return the history unchanged when truncation is off,
the history is empty, or the token total is within the threshold; otherwise
keep the newest-to-oldest selection of safe units that fits the available
budget, drop leading selected units that are not dialog units, and return
the suffix from the first retained unit's start. -/
def truncateHistory (cm : ConversationManager) (messages : List Message) : List Message :=
  if !cm.enableTruncation || messages.length = 0 then messages
  else
    if totalCurrentTokens cm messages ≤ truncationThreshold cm then messages
    else
      let systemTokens := CalculateTokens cm.systemPrompt
      let availableTokens : Int := cm.maxHistoryTokens - systemTokens - 500
      if availableTokens ≤ 0 then []
      else
        let units := identifySafeUnits messages
        if units = [] then messages
        else
          let selectedUnits := selectUnitsFromEnd units availableTokens
          if selectedUnits = [] then []
          else
            match selectedUnits.dropWhile (fun u => u.unitType ≠ "dialog") with
            | [] => []
            | u :: _ => messages.drop u.startIndex

/-! ## The registered-function calling layer (functionCalling.go,
convertFunction.go)

Go reflection over the full primitive surface is modelled on the
representative parameter types bool, int and string (every Go integer width
follows the identical float64-narrowing path, collapsed here to Int) plus
the error interface on return values, which is what the calling layer
distinguishes. -/

/-- reflect.Zero of a formal parameter type. -/
def zeroValue : GoType → GoValue
  | .tbool => .vbool false
  | .tint => .vint 0
  | .tstr => .vstr ""

/-- Truncation toward zero of a rational, matching Go's int(float64)
conversion at the magnitudes the program uses. -/
def ratTrunc (q : Rat) : Int := if 0 ≤ q then ⌊q⌋ else ⌈q⌉

/-- ConvertInterfaceToType: convert a decoded JSON value to the reflected
formal type.  A JSON null yields the zero value; a bool or string must match
exactly; a JSON number (always float64 after decoding) is narrowed to the
integer target; anything else fails. -/
def ConvertInterfaceToType (value : JVal) (targetType : GoType) : Except String GoValue :=
  match value with
  | .jnull => .ok (zeroValue targetType)
  | _ =>
    match targetType with
    | .tbool =>
      match value with
      | .jbool b => .ok (.vbool b)
      | _ => .error "无法转换为 bool 类型"
    | .tstr =>
      match value with
      | .jstr s => .ok (.vstr s)
      | _ => .error "无法转换为 string 类型"
    | .tint =>
      match value with
      | .jnum q => .ok (.vint (ratTrunc q))
      | _ => .error "无法转换为 int 类型"

/-- ConvertReturnValueToString: render one return value as text. -/
def ConvertReturnValueToString : GoValue → String
  | .vstr s => s
  | .verr none => "<nil>"
  | .verr (some m) => "ERROR: " ++ m
  | .vbool true => "true"
  | .vbool false => "false"
  | .vint n => toString n

/-- Whether a return value's static type implements the error interface. -/
def isErrorValue : GoValue → Bool
  | .verr _ => true
  | _ => false

/-- Whether a return value is a non-nil error. -/
def errIsNonNil : GoValue → Bool
  | .verr (some _) => true
  | _ => false

/-- The two-stage decode of the raw arguments in CallRegisteredFunction:
accept an object, or a string that itself decodes to an object; fail
otherwise. -/
def parseParams : RawArgs → Except String (List (String × JVal))
  | .obj kvs => .ok kvs
  | .strObj kvs => .ok kvs
  | .strBad => .error "解析参数失败"
  | .bad => .error "解析参数失败"

/-- The argument-building loop of CallRegisteredFunction: for each formal
parameter (RegisterFunction guarantees names and types have equal length),
fetch the value by stored name; an absent key yields the zero value,
a present key is converted to the formal type (failure aborts the call). -/
def buildArgs (paramNames : List String) (paramTypes : List GoType)
    (params : List (String × JVal)) : Except String (List GoValue) :=
  match paramNames, paramTypes with
  | [], _ => .ok []
  | _ :: _, [] => .ok []
  | n :: ns, t :: ts =>
    match params.lookup n with
    | none =>
      match buildArgs ns ts params with
      | .ok rest => .ok (zeroValue t :: rest)
      | .error e => .error e
    | some pv =>
      match ConvertInterfaceToType pv t with
      | .error e => .error ("转换参数 " ++ n ++ " 失败: " ++ e)
      | .ok cv =>
        match buildArgs ns ts params with
        | .ok rest => .ok (cv :: rest)
        | .error e => .error e

/-- The return-processing loop of CallRegisteredFunction: render each return
value; a final return implementing error aborts the call when non-nil and is
skipped when nil; every other return (error-typed or not) contributes its
rendering. -/
def resultLoop : List GoValue → Except String (List String)
  | [] => .ok []
  | [r] =>
    if isErrorValue r then
      if errIsNonNil r then .error ("函数执行错误: " ++ ConvertReturnValueToString r)
      else .ok []
    else .ok [ConvertReturnValueToString r]
  | r :: s :: rest =>
    match resultLoop (s :: rest) with
    | .ok parts => .ok (ConvertReturnValueToString r :: parts)
    | .error e => .error e

/-- The tail of CallRegisteredFunction after invocation: no returns at all or
no collected parts give the fixed completion string, otherwise the first
collected part is reported. -/
def processResults (results : List GoValue) : Except String String :=
  if results.length = 0 then .ok "函数执行完成"
  else
    match resultLoop results with
    | .error e => .error e
    | .ok [] => .ok "函数执行完成"
    | .ok (p :: _) => .ok ("函数返回: " ++ p)

/-- CallRegisteredFunction: look up the callable (the Go source keeps the
callable, its schema and its parameter names in three maps sharing keys,
bundled here), decode the arguments, build the argument vector, invoke, and
render the returns. -/
def CallRegisteredFunction (cm : ConversationManager) (name : String)
    (arguments : RawArgs) : Except String String :=
  match cm.registeredFuncs.lookup name with
  | none => .error ("未找到注册的函数: " ++ name)
  | some f =>
    match parseParams arguments with
    | .error e => .error e
    | .ok params =>
      match buildArgs f.paramNames f.paramTypes params with
      | .error e => .error e
      | .ok args => processResults (f.impl args)

/-- The returns of a call other than a trailing error-typed value: the
spec-level description of which returns the calling layer renders. -/
def nonTrailingErrorReturns (results : List GoValue) : List GoValue :=
  match results.getLast? with
  | some r => if isErrorValue r then results.dropLast else results
  | none => []

/-! ## The conversation driver (chat.go)

The provider dispatcher is external I/O; a Chat run is therefore driven by
an oracle listing the dispatcher outcome of each round (none is a dispatcher
error, and an exhausted oracle likewise models a failing dispatcher).  The
standard-library JSON decoding of raw tool-call argument bytes is likewise
an external step, passed in as the function dec.  The observer channel only
mirrors appended messages and is not modelled. -/

/-- HandleToolCall: an unregistered name fails the turn; a registered one is
invoked via CallRegisteredFunction, execution errors are caught and
substituted into the result text, and a tool-result message referencing the
call id is appended. -/
def HandleToolCall (cm : ConversationManager) (dec : Option String → RawArgs)
    (history : List Message) (toolCall : ToolCall) : Except String (List Message) :=
  match cm.registeredFuncs.lookup toolCall.function.name with
  | some _ =>
    let result :=
      match CallRegisteredFunction cm toolCall.function.name (dec toolCall.function.arguments) with
      | .ok r => r
      | .error e => "函数执行错误: " ++ e
    .ok (history ++
      [{ role := "tool"
         content := [{ type := "tool_result", text := result, toolID := toolCall.id }] }])
  | none => .error ("未找到函数: " ++ toolCall.function.name)

/-- The inner for-loop over one assistant message's tool calls: each call
bumps the counter first; once the counter exceeds MaxFunctionCallingNums the
call is still executed and the loop signals the outer exit, otherwise the
call is executed and the walk continues.  The first component counts the
tool executions performed (instrumentation for the budget property); the
second carries the new history, the new counter and the exit flag, or the
error of a failed handling. -/
def processToolCalls (cm : ConversationManager) (dec : Option String → RawArgs) :
    List ToolCall → List Message → Int → Nat × Except String (List Message × Int × Bool)
  | [], history, functionCallCount => (0, .ok (history, functionCallCount, false))
  | toolCall :: rest, history, functionCallCount =>
    let newCount := functionCallCount + 1
    if newCount > cm.maxFunctionCallingNums then
      match HandleToolCall cm dec history toolCall with
      | .error e => (0, .error e)
      | .ok history2 => (1, .ok (history2, newCount, true))
    else
      match HandleToolCall cm dec history toolCall with
      | .error e => (0, .error e)
      | .ok history2 =>
        let step := processToolCalls cm dec rest history2 newCount
        (step.1 + 1, step.2)

/-- The outcome of the outer conversation loop. -/
structure LoopResult where
  history : List Message
  stopReason : String
  error : Option String
  usage : Usage
  execCount : Nat
deriving DecidableEq, Repr

/-- The outer conversation loop: each round consumes one oracle entry.  A
dispatcher failure returns the empty stop reason together with the error; an
empty choice list or an assistant message without tool calls ends the turn
with "success"; a failed tool call ends it with "error"; an exhausted call
budget executes the excess call and ends with "max_function_calling_nums";
otherwise a new round begins. -/
def chatLoop (cm : ConversationManager) (dec : Option String → RawArgs) :
    List (Option ChatResponse) → List Message → Int → Usage → LoopResult
  | [], history, _, usage =>
    { history := history, stopReason := "", error := some "chat failed", usage := usage,
      execCount := 0 }
  | none :: _, history, _, usage =>
    { history := history, stopReason := "", error := some "chat failed", usage := usage,
      execCount := 0 }
  | some resp :: restOracle, history, functionCallCount, usage =>
    let usage : Usage :=
      { promptTokens := usage.promptTokens + resp.usage.promptTokens
        completionTokens := usage.completionTokens + resp.usage.completionTokens
        totalTokens := usage.totalTokens + resp.usage.totalTokens }
    match resp.choices with
    | [] =>
      { history := history, stopReason := "success", error := none, usage := usage,
        execCount := 0 }
    | choice :: _ =>
      let history := history ++ [choice.message]
      if choice.message.toolCalls.length = 0 then
        { history := history, stopReason := "success", error := none, usage := usage,
          execCount := 0 }
      else
        match processToolCalls cm dec choice.message.toolCalls history functionCallCount with
        | (n, .error e) =>
          { history := history, stopReason := "error", error := some ("函数调用失败: " ++ e),
            usage := usage, execCount := n }
        | (n, .ok (history2, count2, shouldExit)) =>
          if shouldExit then
            { history := history2, stopReason := "max_function_calling_nums", error := none,
              usage := usage, execCount := n }
          else
            let next := chatLoop cm dec restOracle history2 count2 usage
            { next with execCount := n + next.execCount }

/-- Outcome of one Chat invocation: the Go return values (new messages, stop
reason, error, total usage) together with the post-call history state and the
instrumented count of tool executions. -/
structure ChatResult where
  newMessages : List Message
  stopReason : String
  error : Option String
  totalUsage : Option Usage
  history : List Message
  execCount : Nat
deriving DecidableEq, Repr

/-- The user-message content built at the top of Chat: a text part when the
text is non-empty, then one high-detail data-URI image part per image. -/
def chatUserContent (userMessage : String) (imageBase64s : List String) : List Content :=
  (if userMessage ≠ "" then [{ type := "text", text := userMessage }] else [])
    ++ imageBase64s.map (fun imageBase64 =>
        { type := "image_url"
          imageURL := some { url := "data:image/png;base64," ++ imageBase64,
                             detail := "high" } })

/-- The history the conversation loop starts from: the truncated entry
history, with the user message appended when it has any content. -/
def chatEntryHistory (cm : ConversationManager) (userMessage : String)
    (imageBase64s : List String) (history0 : List Message) : List Message :=
  let history1 := truncateHistory cm history0
  let content := chatUserContent userMessage imageBase64s
  if content.length > 0 then history1 ++ [{ role := "user", content := content }]
  else history1

/-- Chat: truncate the history once on entry, snapshot it for rollback,
append the user message built from the text and the images (only when it has
content), run the conversation loop, and on any error restore the snapshot
and return nil results. -/
def Chat (cm : ConversationManager) (dec : Option String → RawArgs)
    (userMessage : String) (imageBase64s : List String)
    (oracle : List (Option ChatResponse)) (history0 : List Message) : ChatResult :=
  let historySnapshot := truncateHistory cm history0
  let HistoryLength := historySnapshot.length
  let r := chatLoop cm dec oracle (chatEntryHistory cm userMessage imageBase64s history0) 0 {}
  match r.error with
    | some e =>
      { newMessages := [], stopReason := r.stopReason, error := some e, totalUsage := none,
        history := historySnapshot, execCount := r.execCount }
    | none =>
      { newMessages := r.history.drop HistoryLength, stopReason := r.stopReason, error := none,
        totalUsage := some r.usage, history := r.history, execCount := r.execCount }

/-! ## SHA-256 and the OpenAI tool-call id shortening (openai/converter.go)

truncateToolCallID calls the standard library crypto/sha256 and
encoding/hex; both are modelled here in full over Nat with explicit
reduction modulo 2^32, so that the shortening is a closed computable
function.  Go strings are byte slices; len and the hash input are therefore
taken over the UTF-8 bytes of the id. -/

/-- UTF-8 encoding of one scalar value, as Go produces when converting a
string to bytes. -/
def utf8EncodeChar (c : Char) : List Nat :=
  let n := c.toNat
  if n < 128 then [n]
  else if n < 2048 then [192 + n / 64, 128 + n % 64]
  else if n < 65536 then [224 + n / 4096, 128 + n / 64 % 64, 128 + n % 64]
  else [240 + n / 262144, 128 + n / 4096 % 64, 128 + n / 64 % 64, 128 + n % 64]

/-- The UTF-8 bytes of a string. -/
def utf8Bytes (s : String) : List Nat :=
  (s.data.map utf8EncodeChar).flatten

/-- Go len of a string: its byte count. -/
def goLen (s : String) : Nat := (utf8Bytes s).length

/-- Right rotation of a 32-bit word. -/
def rotr32 (x n : Nat) : Nat := ((x >>> n) ||| (x <<< (32 - n))) % 4294967296

/-- The σ0 message-schedule function. -/
def smallSigma0 (x : Nat) : Nat := (rotr32 x 7) ^^^ (rotr32 x 18) ^^^ (x >>> 3)

/-- The σ1 message-schedule function. -/
def smallSigma1 (x : Nat) : Nat := (rotr32 x 17) ^^^ (rotr32 x 19) ^^^ (x >>> 10)

/-- The Σ0 compression function. -/
def bigSigma0 (x : Nat) : Nat := (rotr32 x 2) ^^^ (rotr32 x 13) ^^^ (rotr32 x 22)

/-- The Σ1 compression function. -/
def bigSigma1 (x : Nat) : Nat := (rotr32 x 6) ^^^ (rotr32 x 11) ^^^ (rotr32 x 25)

/-- The SHA-256 round constants (fractional parts of the cube roots of the
first 64 primes). -/
def sha256K : List Nat :=
  [1116352408, 1899447441, 3049323471, 3921009573,
   961987163, 1508970993, 2453635748, 2870763221,
   3624381080, 310598401, 607225278, 1426881987,
   1925078388, 2162078206, 2614888103, 3248222580,
   3835390401, 4022224774, 264347078, 604807628,
   770255983, 1249150122, 1555081692, 1996064986,
   2554220882, 2821834349, 2952996808, 3210313671,
   3336571891, 3584528711, 113926993, 338241895,
   666307205, 773529912, 1294757372, 1396182291,
   1695183700, 1986661051, 2177026350, 2456956037,
   2730485921, 2820302411, 3259730800, 3345764771,
   3516065817, 3600352804, 4094571909, 275423344,
   430227734, 506948616, 659060556, 883997877,
   958139571, 1322822218, 1537002063, 1747873779,
   1955562222, 2024104815, 2227730452, 2361852424,
   2428436474, 2756734187, 3204031479, 3329325298]

/-- The SHA-256 working state. -/
structure Sha256State where
  a : Nat
  b : Nat
  c : Nat
  d : Nat
  e : Nat
  f : Nat
  g : Nat
  h : Nat
deriving DecidableEq, Repr

/-- The SHA-256 initial hash value. -/
def sha256H0 : Sha256State :=
  { a := 1779033703, b := 3144134277, c := 1013904242, d := 2773480762
    e := 1359893119, f := 2600822924, g := 528734635, h := 1541459225 }

/-- Parse big-endian 32-bit words from a byte list. -/
def bytesToWords : List Nat → List Nat
  | b0 :: b1 :: b2 :: b3 :: rest => (((b0 * 256 + b1) * 256 + b2) * 256 + b3) :: bytesToWords rest
  | _ => []

/-- Extend a 16-word block schedule by n further words. -/
def extendSchedule (w : List Nat) : Nat → List Nat
  | 0 => w
  | n + 1 =>
    let w2 := extendSchedule w n
    let t := w2.length
    w2 ++ [(smallSigma1 (w2.getD (t - 2) 0) + w2.getD (t - 7) 0
            + smallSigma0 (w2.getD (t - 15) 0) + w2.getD (t - 16) 0) % 4294967296]

/-- One compression round. -/
def compressRound (st : Sha256State) (kt wt : Nat) : Sha256State :=
  let ch := (st.e &&& st.f) ^^^ ((st.e ^^^ 4294967295) &&& st.g)
  let maj := (st.a &&& st.b) ^^^ (st.a &&& st.c) ^^^ (st.b &&& st.c)
  let t1 := (st.h + bigSigma1 st.e + ch + kt + wt) % 4294967296
  let t2 := (bigSigma0 st.a + maj) % 4294967296
  { a := (t1 + t2) % 4294967296, b := st.a, c := st.b, d := st.c
    e := (st.d + t1) % 4294967296, f := st.e, g := st.f, h := st.g }

/-- Compress one 64-byte block into the running hash state. -/
def compressBlock (hs : Sha256State) (block : List Nat) : Sha256State :=
  let w := extendSchedule (bytesToWords block) 48
  let s := (List.zip sha256K w).foldl (fun st kw => compressRound st kw.1 kw.2) hs
  { a := (hs.a + s.a) % 4294967296, b := (hs.b + s.b) % 4294967296
    c := (hs.c + s.c) % 4294967296, d := (hs.d + s.d) % 4294967296
    e := (hs.e + s.e) % 4294967296, f := (hs.f + s.f) % 4294967296
    g := (hs.g + s.g) % 4294967296, h := (hs.h + s.h) % 4294967296 }

/-- Fold the compression over consecutive 64-byte blocks (fuelled by the
byte count, which bounds the block count). -/
def sha256BlocksLoop : Nat → Sha256State → List Nat → Sha256State
  | 0, hs, _ => hs
  | _ + 1, hs, [] => hs
  | fuel + 1, hs, bytes => sha256BlocksLoop fuel (compressBlock hs (bytes.take 64)) (bytes.drop 64)

/-- SHA-256 padding: append the 0x80 marker, zeros to 56 mod 64, and the
big-endian 64-bit bit length. -/
def sha256Pad (msg : List Nat) : List Nat :=
  let len := msg.length
  let bitLen := len * 8
  let r := (len + 1) % 64
  let zeros := if r ≤ 56 then 56 - r else 120 - r
  msg ++ [128] ++ List.replicate zeros 0
    ++ [bitLen >>> 56 % 256, bitLen >>> 48 % 256, bitLen >>> 40 % 256, bitLen >>> 32 % 256,
        bitLen >>> 24 % 256, bitLen >>> 16 % 256, bitLen >>> 8 % 256, bitLen % 256]

/-- Big-endian bytes of one 32-bit word. -/
def wordBytes (w : Nat) : List Nat :=
  [w / 16777216 % 256, w / 65536 % 256, w / 256 % 256, w % 256]

/-- The final state serialised to the 32-byte digest. -/
def stateWords (s : Sha256State) : List Nat :=
  [s.a, s.b, s.c, s.d, s.e, s.f, s.g, s.h]

/-- SHA-256 of a byte list. -/
def sha256 (msg : List Nat) : List Nat :=
  let padded := sha256Pad msg
  let final := sha256BlocksLoop padded.length sha256H0 padded
  ((stateWords final).map wordBytes).flatten

/-- One lowercase hex digit. -/
def hexDigit (n : Nat) : Char :=
  if n < 10 then Char.ofNat (48 + n) else Char.ofNat (87 + n)

/-- hex.EncodeToString of a byte list. -/
def hexEncode (bytes : List Nat) : String :=
  String.mk ((bytes.map (fun b => [hexDigit (b / 16), hexDigit (b % 16)])).flatten)

/-- truncateToolCallID: ids of at most 40 bytes pass through; longer ids are
replaced by "call_" plus the first 32 hex characters of their SHA-256. -/
def truncateToolCallID (id : String) : String :=
  if goLen id ≤ 40 then id
  else
    let hash := sha256 (utf8Bytes id)
    let hashStr := String.mk ((hexEncode hash).data.take 32)
    "call_" ++ hashStr

/-- Whether a character is a lowercase hex digit (the class [0-9a-f]). -/
def isHexDigitChar (c : Char) : Bool :=
  (decide ('0' ≤ c) && decide (c ≤ '9')) || (decide ('a' ≤ c) && decide (c ≤ 'f'))

/-- The regex on emitted ids (call_ then exactly 32 lowercase hex digits)
as a Boolean predicate. -/
def isCallHexId (s : String) : Bool :=
  ("call_".data).isPrefixOf s.data && (s.data.drop 5).length == 32
    && (s.data.drop 5).all isHexDigitChar

/-- A trivial raw-argument decoder for runs whose tool calls never parse. -/
def noDecode : Option String → RawArgs := fun _ => RawArgs.bad

/-! ## The canonical request and the OpenAI adapter (openai/converter.go,
openai/client.go)

The Go converter round-trips the canonical request through JSON into an
anonymous struct with the same fields; that marshalling is the identity on
the modelled fields and is elided.  JSON-schema tool parameter objects are
carried opaquely (the adapters copy them without inspection), modelled as
flat key/value lists. -/

/-- Canonical function definition (general.FunctionDefinition). -/
structure FunctionDefinition where
  name : String
  description : String := ""
  parameters : List (String × JVal) := []
deriving DecidableEq, Repr

/-- Canonical tool definition (general.Tool). -/
structure Tool where
  type : String := "function"
  function : FunctionDefinition
deriving DecidableEq, Repr

/-- Canonical chat request (general.ChatRequest). -/
structure ChatRequest where
  model : String := ""
  messages : List Message := []
  tools : List Tool := []
  maxTokens : Int := 0
  temperature : Rat := 0
  stream : Bool := false
  systemPrompt : String := ""
deriving DecidableEq, Repr

/-- Whether pat occurs at the head of s. -/
def subListAt : List Char → List Char → Bool
  | _, [] => true
  | [], _ :: _ => false
  | c :: s, p :: ps => (c == p) && subListAt s ps

/-- Whether pat occurs anywhere in s. -/
def containsSubList : List Char → List Char → Bool
  | s, pat =>
    if subListAt s pat then true
    else
      match s with
      | [] => false
      | _ :: rest => containsSubList rest pat

/-- strings.Contains (byte-level in Go; character-level here, which agrees
on the ASCII model names the adapter tests). -/
def containsSub (s sub : String) : Bool := containsSubList s.data sub.data

/-- OpenAI wire image payload. -/
structure OpenAIImageURL where
  url : String
  detail : String := ""
deriving DecidableEq, Repr

/-- OpenAI wire content part. -/
structure OpenAIContent where
  type : String
  text : String := ""
  imageURL : Option OpenAIImageURL := none
deriving DecidableEq, Repr

/-- The interface-typed Content field of an OpenAI message: Go leaves it
nil, or stores a bare string, or an array of typed parts. -/
inductive OpenAIContentField where
  | empty
  | str (s : String)
  | parts (l : List OpenAIContent)
deriving DecidableEq, Repr

/-- OpenAI wire function call (arguments as a JSON string). -/
structure OpenAIFunctionCall where
  name : String
  arguments : String
deriving DecidableEq, Repr

/-- OpenAI wire tool call. -/
structure OpenAIToolCall where
  id : String
  type : String
  function : OpenAIFunctionCall
deriving DecidableEq, Repr

/-- OpenAI wire message. -/
structure OpenAIMessage where
  role : String
  content : OpenAIContentField := .empty
  name : String := ""
  toolCalls : List OpenAIToolCall := []
  toolCallID : String := ""
deriving DecidableEq, Repr

/-- OpenAI wire function definition. -/
structure OpenAIFunctionDefinition where
  name : String
  description : String := ""
  parameters : List (String × JVal) := []
deriving DecidableEq, Repr

/-- OpenAI wire tool definition. -/
structure OpenAITool where
  type : String
  function : OpenAIFunctionDefinition
deriving DecidableEq, Repr

/-- OpenAI wire request: optional max-token fields (omitted when nil) and an
optional temperature. -/
structure OpenAIChatRequest where
  model : String
  messages : List OpenAIMessage := []
  tools : List OpenAITool := []
  maxTokens : Option Int := none
  maxCompletionTokens : Option Int := none
  temperature : Option Rat := none
  stream : Bool := false
deriving DecidableEq, Repr

/-- Conversion of one canonical tool call: the id is shortened when needed
and nil arguments become the empty JSON object string. -/
def convertOpenAIToolCall (tc : ToolCall) : OpenAIToolCall :=
  { id := truncateToolCallID tc.id
    type := tc.type
    function :=
      { name := tc.function.name
        arguments := match tc.function.arguments with
          | some a => a
          | none => "{}" } }

/-- The multi-part branch of the OpenAI message conversion: collect text and
image parts, and when the message is a pure tool-result carrier with no tool
calls, emit one tool-role message per result part instead of the message
itself. -/
def convertOpenAIMessageGeneral (msg : Message) (toolCalls : List OpenAIToolCall) :
    List OpenAIMessage :=
  let contents := msg.content.filterMap (fun content =>
    if content.type = "text" then
      some { type := "text", text := content.text }
    else if content.type = "image_url" ∨ content.type = "image_base64" then
      match content.imageURL with
      | some i => some { type := "image_url", imageURL := some { url := i.url, detail := i.detail } }
      | none => none
    else none)
  let hasToolResult := msg.content.any (fun content => content.type = "tool_result")
  let contentField : OpenAIContentField :=
    if contents.length > 0 then .parts contents else .empty
  let hasOtherContent := msg.content.any (fun content => content.type ≠ "tool_result")
  if hasToolResult ∧ ¬ hasOtherContent = true ∧ msg.toolCalls = [] then
    (msg.content.filter (fun content => content.type = "tool_result")).map (fun content =>
      { role := "tool", content := .str content.text,
        toolCallID := truncateToolCallID content.toolID })
  else
    [{ role := msg.role, name := msg.name, content := contentField, toolCalls := toolCalls }]

/-- Conversion of one canonical message to the OpenAI wire messages it
contributes: a single text part becomes a bare string, an empty content list
leaves the field nil, anything else goes through the multi-part branch. -/
def convertOpenAIMessage (msg : Message) : List OpenAIMessage :=
  let toolCalls := msg.toolCalls.map convertOpenAIToolCall
  match msg.content with
  | [] => [{ role := msg.role, name := msg.name, content := .empty, toolCalls := toolCalls }]
  | [c] =>
    if c.type = "text" then
      [{ role := msg.role, name := msg.name, content := .str c.text, toolCalls := toolCalls }]
    else convertOpenAIMessageGeneral msg toolCalls
  | _ => convertOpenAIMessageGeneral msg toolCalls

/-- ToOpenAIRequest: set temperature unless the model family forbids it,
route max_tokens to max_completion_tokens for the new model families, place
the system prompt as a leading system message, convert the messages, and
copy the tool definitions. -/
def ToOpenAIRequest (req : ChatRequest) : OpenAIChatRequest :=
  let r0 : OpenAIChatRequest := { model := req.model, stream := req.stream }
  let r1 :=
    if ¬ containsSub req.model "gpt-5" = true ∧ ¬ containsSub req.model "o1" = true ∧
        req.temperature ≠ 0 then
      { r0 with temperature := some req.temperature }
    else r0
  let r2 :=
    if req.maxTokens > 0 then
      if containsSub req.model "gpt-5" = true ∨ containsSub req.model "o1" = true ∨
          containsSub req.model "gpt-4o-realtime" = true then
        { r1 with maxCompletionTokens := some req.maxTokens }
      else { r1 with maxTokens := some req.maxTokens }
    else r1
  let systemMessages : List OpenAIMessage :=
    if req.systemPrompt ≠ "" then [{ role := "system", content := .str req.systemPrompt }]
    else []
  { r2 with
    messages := systemMessages ++ (req.messages.map convertOpenAIMessage).flatten
    tools := req.tools.map (fun tool =>
      { type := tool.type
        function :=
          { name := tool.function.name
            description := tool.function.description
            parameters := tool.function.parameters } }) }

/-- The model-defaulting step of the OpenAI client Chat: when the converted
request has no model, install the configured default, move the single
max-token value to the field the new model family requires (when a token
field was set), and drop the temperature for the families that reject it. -/
def applyDefaultModel (defaultModel : String) (req0 : OpenAIChatRequest) : OpenAIChatRequest :=
  if req0.model = "" then
    let r1 := { req0 with model := defaultModel }
    let r2 :=
      if r1.maxTokens ≠ none ∨ r1.maxCompletionTokens ≠ none then
        let p : Int × OpenAIChatRequest :=
          match r1.maxTokens with
          | some v => (v, { r1 with maxTokens := none })
          | none =>
            match r1.maxCompletionTokens with
            | some v => (v, { r1 with maxCompletionTokens := none })
            | none => (0, r1)
        if p.1 > 0 then
          if containsSub p.2.model "gpt-5" = true ∨ containsSub p.2.model "o1" = true ∨
              containsSub p.2.model "gpt-4o-realtime" = true then
            { p.2 with maxCompletionTokens := some p.1 }
          else { p.2 with maxTokens := some p.1 }
        else p.2
      else r1
    if containsSub r2.model "gpt-5" = true ∨ containsSub r2.model "o1" = true then
      { r2 with temperature := none }
    else r2
  else req0

/-- The decoder for runs whose tool calls carry an empty JSON object. -/
def decodeEmptyObj : Option String → RawArgs := fun _ => RawArgs.obj []

/-! ## The DeepSeek adapter (deepseek/converter.go)

The same JSON round-trip into an identical anonymous struct is elided.  The
per-message accumulations of the Go loop (tool-result side messages, text
parts, image parts) are named helpers here. -/

/-- DeepSeek wire image payload. -/
structure DeepSeekImageURL where
  url : String
  detail : String := ""
deriving DecidableEq, Repr

/-- DeepSeek wire content part. -/
structure DeepSeekContent where
  type : String
  text : String := ""
  imageURL : Option DeepSeekImageURL := none
deriving DecidableEq, Repr

/-- The interface-typed Content field of a DeepSeek message: the converter
always assigns either a bare string or an array of typed parts. -/
inductive DeepSeekContentField where
  | str (s : String)
  | parts (l : List DeepSeekContent)
deriving DecidableEq, Repr

/-- DeepSeek wire function call (arguments as a raw JSON string, possibly
nil). -/
structure DeepSeekFunctionCall where
  name : String
  arguments : Option String := none
deriving DecidableEq, Repr

/-- DeepSeek wire tool call. -/
structure DeepSeekToolCall where
  id : String
  type : String
  function : DeepSeekFunctionCall
deriving DecidableEq, Repr

/-- DeepSeek wire message. -/
structure DeepSeekMessage where
  role : String
  content : DeepSeekContentField := .str ""
  name : String := ""
  toolCalls : List DeepSeekToolCall := []
  toolCallID : String := ""
deriving DecidableEq, Repr

/-- One character of Go's encoding/json string escaping (HTML escaping on,
as json.Marshal defaults). -/
def goJsonEscapeChar (c : Char) : List Char :=
  if c = '"' then ['\\', '"']
  else if c = '\\' then ['\\', '\\']
  else if c = '\n' then ['\\', 'n']
  else if c = '\r' then ['\\', 'r']
  else if c = '\t' then ['\\', 't']
  else if c.toNat < 32 then ['\\', 'u', '0', '0', hexDigit (c.toNat / 16), hexDigit (c.toNat % 16)]
  else if c = '<' then ['\\', 'u', '0', '0', '3', 'c']
  else if c = '>' then ['\\', 'u', '0', '0', '3', 'e']
  else if c = '&' then ['\\', 'u', '0', '0', '2', '6']
  else if c.toNat = 8232 then ['\\', 'u', '2', '0', '2', '8']
  else if c.toNat = 8233 then ['\\', 'u', '2', '0', '2', '9']
  else [c]

/-- json.Marshal of a Go string. -/
def goJsonQuoteString (s : String) : String :=
  String.mk (('"' :: (s.data.map goJsonEscapeChar).flatten) ++ ['"'])

/-- Conversion of one canonical tool call to DeepSeek: arguments that are
not already a JSON string get wrapped into one.  (Go indexes byte 0 of the
raw bytes and would panic on an empty non-nil slice; that unreachable case
passes through unchanged here.) -/
def convertDeepSeekToolCall (tc : ToolCall) : DeepSeekToolCall :=
  { id := tc.id
    type := tc.type
    function :=
      { name := tc.function.name
        arguments :=
          match tc.function.arguments with
          | none => none
          | some a =>
            match a.data with
            | [] => some a
            | c :: _ => if c ≠ '"' then some (goJsonQuoteString a) else some a } }

/-- The tool-result side messages one canonical message contributes (only
parts with both a text and a tool id count). -/
def dsToolResultMessages (msg : Message) : List DeepSeekMessage :=
  msg.content.filterMap (fun content =>
    if content.type = "tool_result" ∧ content.text ≠ "" ∧ content.toolID ≠ "" then
      some { role := "tool", content := .str content.text, toolCallID := content.toolID }
    else none)

/-- The non-empty text parts of one canonical message. -/
def dsTextParts (msg : Message) : List String :=
  msg.content.filterMap (fun content =>
    if content.type = "text" ∧ content.text ≠ "" then some content.text else none)

/-- The image parts of one canonical message. -/
def dsImageContents (msg : Message) : List DeepSeekContent :=
  msg.content.filterMap (fun content =>
    if content.type = "image_url" ∨ content.type = "image_base64" then
      match content.imageURL with
      | some i =>
        some { type := "image_url", imageURL := some { url := i.url, detail := i.detail } }
      | none => none
    else none)

/-- One iteration of the DeepSeek message conversion: emit the tool-result
side messages, assemble the message content (merging the system prompt into
the first user message that takes a text or empty-string content), and skip
pure tool-result carriers.  Returns the emitted messages and the updated
first-user flag. -/
def deepseekConvertStep (systemPromptToMerge : String) (isFirstUserMessage : Bool)
    (msg : Message) : List DeepSeekMessage × Bool :=
  let textParts := dsTextParts msg
  let imageContents := dsImageContents msg
  let hasImageContent := imageContents.length > 0
  let mergecond :=
    isFirstUserMessage = true ∧ msg.role = "user" ∧ systemPromptToMerge ≠ ""
  let contentAndFlag : DeepSeekContentField × Bool :=
    if hasImageContent then
      if textParts.length > 0 then
        let textContent := String.intercalate " " textParts
        if mergecond then
          let merged : DeepSeekContent :=
            { type := "text", text := systemPromptToMerge ++ "\n\n" ++ textContent }
          (.parts (merged :: imageContents), false)
        else
          (.parts ({ type := "text", text := textContent } :: imageContents),
            isFirstUserMessage)
      else (.parts imageContents, isFirstUserMessage)
    else
      if textParts.length > 0 then
        let textContent := String.intercalate " " textParts
        if mergecond then
          (.str (systemPromptToMerge ++ "\n\n" ++ textContent), false)
        else (.str textContent, isFirstUserMessage)
      else
        if mergecond then (.str systemPromptToMerge, false)
        else (.str "", isFirstUserMessage)
  let deepseekMsg : DeepSeekMessage :=
    { role := msg.role, name := msg.name, content := contentAndFlag.1
      toolCalls := msg.toolCalls.map convertDeepSeekToolCall }
  let hasToolResult := msg.content.any (fun content =>
    content.type = "tool_result" ∧ content.text ≠ "" ∧ content.toolID ≠ "")
  let hasOtherContent := msg.content.any (fun content => content.type ≠ "tool_result")
  let skip := hasToolResult = true ∧ hasOtherContent = false ∧ msg.toolCalls = []
  (dsToolResultMessages msg ++ (if skip then [] else [deepseekMsg]), contentAndFlag.2)

/-- The DeepSeek conversion loop over the canonical messages, threading the
first-user flag. -/
def deepseekMessagesLoop (systemPromptToMerge : String) :
    List Message → Bool → List DeepSeekMessage
  | [], _ => []
  | msg :: rest, isFirstUserMessage =>
    let step := deepseekConvertStep systemPromptToMerge isFirstUserMessage msg
    step.1 ++ deepseekMessagesLoop systemPromptToMerge rest step.2

/-- DeepSeek wire function definition. -/
structure DeepSeekFunctionDefinition where
  name : String
  description : String := ""
  parameters : List (String × JVal) := []
deriving DecidableEq, Repr

/-- DeepSeek wire tool definition. -/
structure DeepSeekTool where
  type : String
  function : DeepSeekFunctionDefinition
deriving DecidableEq, Repr

/-- DeepSeek wire request. -/
structure DeepSeekChatRequest where
  model : String
  messages : List DeepSeekMessage := []
  tools : List DeepSeekTool := []
  maxTokens : Int := 0
  temperature : Rat := 0
  stream : Bool := false
deriving DecidableEq, Repr

/-- ToDeepSeekRequest: no system-role message is produced by the converter
itself; the system prompt is merged into the first suitable user message by
the conversion loop. -/
def ToDeepSeekRequest (req : ChatRequest) : DeepSeekChatRequest :=
  let systemPromptToMerge := if req.systemPrompt ≠ "" then req.systemPrompt else ""
  { model := req.model
    maxTokens := req.maxTokens
    temperature := req.temperature
    stream := req.stream
    messages := deepseekMessagesLoop systemPromptToMerge req.messages true
    tools := req.tools.map (fun tool =>
      { type := tool.type
        function :=
          { name := tool.function.name
            description := tool.function.description
            parameters := tool.function.parameters } }) }

/-- The leading text of an emitted DeepSeek content field: the bare string,
or the text of a leading text part. -/
def dsLeadText : DeepSeekContentField → String
  | .str s => s
  | .parts l =>
    match l.head? with
    | some p => if p.type = "text" then p.text else ""
    | none => ""

/-! ## Structural facts about the truncation pipeline -/

/-- Every safe unit produced by the identification loop starts at an index
holding a user message. -/
theorem identifyLoop_start_user (messages : List Message) (fuel : Nat) :
    ∀ i : Nat, ∀ u ∈ identifyLoop messages fuel i,
      ∃ m, messages[u.startIndex]? = some m ∧ m.role = "user" := by
  induction fuel with
  | zero => intro i u hu; simp [identifyLoop] at hu
  | succ fuel ih =>
    intro i u hu
    rw [identifyLoop] at hu
    by_cases h : i < messages.length
    · simp only [dif_pos h] at hu
      by_cases hrole : (messages.get ⟨i, h⟩).role = "user"
      · rw [if_pos hrole] at hu
        simp only [List.mem_cons] at hu
        rcases hu with hu | hu
        · refine ⟨messages[i], ?_, hrole⟩
          rw [hu]
          exact (List.getElem?_eq_getElem h).symm ▸ rfl
        · exact ih _ u hu
      · rw [if_neg hrole] at hu
        exact ih _ u hu
    · simp only [dif_neg h] at hu
      simp at hu

/-- Units admitted by the newest-to-oldest selection walk all come from the
input list. -/
theorem selectRevLoop_subset (maxTokens currentTokens : Int) :
    ∀ units : List SafeUnit, ∀ u ∈ selectRevLoop maxTokens currentTokens units, u ∈ units := by
  intro units
  induction units generalizing currentTokens with
  | nil => intro u hu; simp [selectRevLoop] at hu
  | cons v rest ih =>
    intro u hu
    rw [selectRevLoop] at hu
    split at hu
    · simp only [List.mem_cons] at hu
      rcases hu with hu | hu
      · exact hu ▸ List.mem_cons_self v rest
      · exact List.mem_cons_of_mem v (ih _ u hu)
    · simp at hu

/-- Units selected by selectUnitsFromEnd come from the input list. -/
theorem selectUnitsFromEnd_subset (units : List SafeUnit) (maxTokens : Int) :
    ∀ u ∈ selectUnitsFromEnd units maxTokens, u ∈ units := by
  intro u hu
  rw [selectUnitsFromEnd] at hu
  split at hu
  · simp at hu
  · rw [List.mem_reverse] at hu
    have := selectRevLoop_subset maxTokens 0 units.reverse u hu
    rwa [List.mem_reverse] at this

/-- truncateHistory returns its input, the empty history, or the suffix of
its input starting at an identified safe unit. -/
theorem truncateHistory_cases (cm : ConversationManager) (messages : List Message) :
    truncateHistory cm messages = messages ∨ truncateHistory cm messages = [] ∨
      ∃ u ∈ identifySafeUnits messages,
        truncateHistory cm messages = messages.drop u.startIndex := by
  rw [truncateHistory]
  simp only []
  split
  · left; rfl
  · split
    · left; rfl
    · split
      · right; left; rfl
      · split
        · left; rfl
        · split
          · right; left; rfl
          · split
            · right; left; rfl
            · rename_i u rest heq
              right; right
              refine ⟨u, ?_, rfl⟩
              have h1 : u ∈ (selectUnitsFromEnd (identifySafeUnits messages)
                  (cm.maxHistoryTokens - (CalculateTokens cm.systemPrompt : Int) - 500)).dropWhile
                    (fun v => v.unitType ≠ "dialog") := by
                rw [heq]; exact List.mem_cons_self u rest
              have h2 := (List.dropWhile_sublist _).mem h1
              exact selectUnitsFromEnd_subset _ _ u h2

/-- Lift of the start-index invariant to identifySafeUnits. -/
theorem identifySafeUnits_start_user (messages : List Message) :
    ∀ u ∈ identifySafeUnits messages,
      ∃ m, messages[u.startIndex]? = some m ∧ m.role = "user" := by
  intro u hu
  rw [identifySafeUnits] at hu
  split at hu
  · simp at hu
  · exact identifyLoop_start_user messages messages.length 0 u hu

/-! ## Concrete histories used by counterexamples and witnesses -/

/-- A sample tool call. -/
def toolCallExample : ToolCall :=
  { id := "call_1", function := { name := "add", arguments := some "{}" } }

def msgUserHi : Message := { role := "user", content := [{ type := "text", text := "hi" }] }

/-- An assistant message carrying 17 tool calls: 850 estimated tokens. -/
def msgAsstCalls : Message := { role := "assistant", toolCalls := List.replicate 17 toolCallExample }

def msgToolRes : Message :=
  { role := "tool", content := [{ type := "tool_result", text := "r", toolID := "call_1" }] }

def msgAsstDone : Message := { role := "assistant", content := [{ type := "text", text := "done" }] }

def msgUserOk : Message := { role := "user", content := [{ type := "text", text := "ok" }] }

def msgAsstFine : Message := { role := "assistant", content := [{ type := "text", text := "fine" }] }

/-- A six-message history forming one heavy tool-sequence unit followed by
one light dialog unit. -/
def histSix : List Message :=
  [msgUserHi, msgAsstCalls, msgToolRes, msgAsstDone, msgUserOk, msgAsstFine]

/-- A history consisting of a single assistant message (no user message, so
no safe unit is identifiable). -/
def histAsstOnly : List Message := [msgAsstCalls]

/-- A manager with all defaults (NewConversationManager). -/
def cmDefault : ConversationManager := {}

/-- A two-parameter addition function as registered by RegisterFunctionSimple
(auto-named parameters param0, param1). -/
def addFn : RegisteredFunction :=
  { paramNames := ["param0", "param1"]
    paramTypes := [.tint, .tint]
    impl := fun args =>
      match args with
      | [.vint a, .vint b] => [.vint (a + b)]
      | _ => [.verr (some "bad args")] }

/-- A manager with the addition function registered. -/
def cmAdd : ConversationManager := { registeredFuncs := [("AddNumber", addFn)] }

/-- A registrable function whose error-typed return is in first position
(IsValidParameterTypeReturn accepts the error interface at any position). -/
def errFirstFn : RegisteredFunction :=
  { paramNames := []
    paramTypes := []
    impl := fun _ => [.verr (some "boom"), .vint 5] }

/-- A manager with the error-first function registered. -/
def cmErrFirst : ConversationManager := { registeredFuncs := [("weird", errFirstFn)] }

/-- A tool call naming the registered addition function. -/
def toolCallAdd : ToolCall :=
  { id := "c1", function := { name := "AddNumber", arguments := some "{}" } }

/-- A provider response whose single choice requests one tool call. -/
def respToolCall : ChatResponse :=
  { choices := [{ message := { role := "assistant", toolCalls := [toolCallAdd] } }] }

/-- A provider response whose single choice is a plain text answer. -/
def respDone : ChatResponse :=
  { choices := [{ message := { role := "assistant",
                               content := [{ type := "text", text := "1646" }] } }] }

/-- A manager with a negative function-call budget and the addition function
registered. -/
def cmNeg : ConversationManager :=
  { maxFunctionCallingNums := -1, registeredFuncs := [("AddNumber", addFn)] }

/-- A manager with the addition function registered and a budget of one. -/
def cmBudgetOne : ConversationManager :=
  { maxFunctionCallingNums := 1, registeredFuncs := [("AddNumber", addFn)] }

/-- A manager with a small history budget: threshold 800, available 500. -/
def cmSmall : ConversationManager := { maxHistoryTokens := 1000 }

/-! ## Claims C3, C4, C5 -/

/-- Claim C3: for every history H and every setting of MaxHistoryTokens,
EnableTruncation and the system prompt, truncateHistory(H) is a contiguous
suffix of H, and in particular no longer than H. -/
theorem C3_truncateHistory_suffix (cm : ConversationManager) (messages : List Message) :
    truncateHistory cm messages <:+ messages ∧
      (truncateHistory cm messages).length ≤ messages.length := by
  have hsuf : truncateHistory cm messages <:+ messages := by
    rcases truncateHistory_cases cm messages with h | h | ⟨u, _, h⟩
    · rw [h]
    · rw [h]; exact List.nil_suffix
    · rw [h]; exact List.drop_suffix _ _
  exact ⟨hsuf, hsuf.length_le⟩

/-- Claim C4 counterexample: a single assistant message below the token
threshold is returned unchanged, so the non-empty output of truncateHistory
starts with an assistant message, not a user message. -/
theorem C4_counterexample :
    truncateHistory cmDefault histAsstOnly ≠ [] ∧
      ((truncateHistory cmDefault histAsstOnly).head?.all fun m => m.role = "user") = false := by
  decide

/-- Claim C4 (amended): whenever truncateHistory actually changes the
history, a non-empty result begins with a user-role message. -/
theorem C4_truncate_head_user (cm : ConversationManager) (messages : List Message)
    (hch : truncateHistory cm messages ≠ messages) (m : Message)
    (hm : (truncateHistory cm messages).head? = some m) :
    m.role = "user" := by
  rcases truncateHistory_cases cm messages with h | h | ⟨u, hu, h⟩
  · exact absurd h hch
  · rw [h] at hm; simp at hm
  · rw [h, List.head?_drop] at hm
    obtain ⟨m2, hm2, hrole⟩ := identifySafeUnits_start_user messages u hu
    rw [hm2] at hm
    injection hm with hm
    rw [← hm]
    exact hrole

/-- Witness for C4 (amended): the small-budget manager truncates the
six-message history to its final dialog unit, whose head is a user message. -/
theorem C4_truncate_head_user_witness :
    truncateHistory cmSmall histSix ≠ histSix ∧
      (truncateHistory cmSmall histSix).head? = some msgUserOk ∧ msgUserOk.role = "user" :=
  ⟨by decide, by decide, C4_truncate_head_user cmSmall histSix (by decide) msgUserOk (by decide)⟩

/-- Claim C5 counterexample: a history whose token total exceeds the 80%
threshold by 50 tokens in which no safe unit exists (no user message), so
truncateHistory drops nothing at all. -/
theorem C5_counterexample :
    truncationThreshold cmSmall + 1 ≤ totalCurrentTokens cmSmall histAsstOnly ∧
      truncateHistory cmSmall histAsstOnly = histAsstOnly ∧ histAsstOnly ≠ [] := by
  decide

/-- Claim C5 (amended): a history whose estimated total (history plus system
prompt) is at most the 80% threshold is returned unchanged. -/
theorem C5_below_threshold_unchanged (cm : ConversationManager) (messages : List Message)
    (h : totalCurrentTokens cm messages ≤ truncationThreshold cm) :
    truncateHistory cm messages = messages := by
  rw [truncateHistory]
  split
  · rfl
  · rfl

/-- Witness for C5 (amended): the six-message history is far below the
default 80000-token threshold and is returned unchanged. -/
theorem C5_below_threshold_unchanged_witness :
    totalCurrentTokens cmDefault histSix ≤ truncationThreshold cmDefault ∧
      truncateHistory cmDefault histSix = histSix :=
  ⟨by decide, C5_below_threshold_unchanged cmDefault histSix (by decide)⟩

/-! ## Claim C7 -/

/-- In a successfully built argument vector, every position whose stored
parameter name is absent from the parsed arguments holds the zero value of
the formal type. -/
theorem buildArgs_zero_at_missing :
    ∀ (names : List String) (types : List GoType) (params : List (String × JVal))
      (args : List GoValue), buildArgs names types params = .ok args →
      ∀ i (hi : i < names.length) (ht : i < types.length) (ha : i < args.length),
        params.lookup (names.get ⟨i, hi⟩) = none →
        args.get ⟨i, ha⟩ = zeroValue (types.get ⟨i, ht⟩) := by
  intro names
  induction names with
  | nil =>
    intro types params args h i hi
    simp at hi
  | cons n ns ih =>
    intro types params args h i hi ht ha hlookup
    cases types with
    | nil =>
      rw [buildArgs] at h
      injection h with h
      subst h
      simp at ha
    | cons t ts =>
      rw [buildArgs] at h
      split at h
      next hl =>
        split at h
        next rest hrest =>
          injection h with h
          subst h
          cases i with
          | zero => rfl
          | succ j =>
            simp only [List.get_cons_succ] at hlookup ⊢
            exact ih ts params rest hrest j (by simpa using hi) (by simpa using ht)
              (by simpa using ha) hlookup
        next e hrest => exact absurd h (by simp)
      next pv hl =>
        split at h
        next e hconv => exact absurd h (by simp)
        next cv hconv =>
          split at h
          next rest hrest =>
            injection h with h
            subst h
            cases i with
            | zero =>
              rw [List.get] at hlookup
              rw [hl] at hlookup
              exact absurd hlookup (by simp)
            | succ j =>
              simp only [List.get_cons_succ] at hlookup ⊢
              exact ih ts params rest hrest j (by simpa using hi) (by simpa using ht)
                (by simpa using ha) hlookup
          next e hrest => exact absurd h (by simp)

/-- When every stored parameter name is absent, the argument vector is built
from zero values alone (the call does not fail on missing keys). -/
theorem buildArgs_all_missing :
    ∀ (names : List String) (types : List GoType) (params : List (String × JVal)),
      names.length = types.length →
      (∀ n ∈ names, params.lookup n = none) →
      buildArgs names types params = .ok (types.map zeroValue) := by
  intro names
  induction names with
  | nil =>
    intro types params hlen _
    cases types with
    | nil => rfl
    | cons t ts => simp at hlen
  | cons n ns ih =>
    intro types params hlen hmiss
    cases types with
    | nil => simp at hlen
    | cons t ts =>
      rw [buildArgs]
      rw [hmiss n (List.mem_cons_self n ns)]
      rw [ih ts params (by simpa using hlen) (fun x hx => hmiss x (List.mem_cons_of_mem n hx))]
      rfl

/-- A two-element-or-longer list keeps its head outside the trailing-error
stripping. -/
theorem nonTrailingErrorReturns_cons_cons (r s : GoValue) (rest : List GoValue) :
    nonTrailingErrorReturns (r :: s :: rest) = r :: nonTrailingErrorReturns (s :: rest) := by
  rw [nonTrailingErrorReturns, nonTrailingErrorReturns, List.getLast?_cons_cons]
  cases hg : (s :: rest).getLast? with
  | none => simp at hg
  | some l =>
    by_cases he : isErrorValue l
    · simp [he, List.dropLast]
    · simp [he]

/-- When the final return is not a non-nil error, the collection loop
renders exactly the returns other than a trailing error-typed value. -/
theorem resultLoop_ok :
    ∀ results : List GoValue,
      (∀ r, results.getLast? = some r → errIsNonNil r = false) →
      resultLoop results = .ok ((nonTrailingErrorReturns results).map ConvertReturnValueToString)
  | [] , _ => by simp [resultLoop, nonTrailingErrorReturns]
  | [r], h => by
    have hr := h r (by simp)
    rw [resultLoop]
    by_cases he : isErrorValue r
    · rw [if_pos he, if_neg (by simp [hr])]
      rw [nonTrailingErrorReturns]
      simp [he]
    · rw [if_neg he]
      rw [nonTrailingErrorReturns]
      simp [he]
  | r :: s :: rest, h => by
    have ih := resultLoop_ok (s :: rest) (by
      intro x hx
      exact h x (by rw [List.getLast?_cons_cons]; exact hx))
    rw [resultLoop, ih, nonTrailingErrorReturns_cons_cons]
    simp

/-- The result string of a successful invocation, described through the
trailing-error stripping of the return list. -/
theorem processResults_spec (results : List GoValue)
    (h : ∀ r, results.getLast? = some r → errIsNonNil r = false) :
    processResults results =
      match nonTrailingErrorReturns results with
      | [] => Except.ok "函数执行完成"
      | r :: _ => Except.ok ("函数返回: " ++ ConvertReturnValueToString r) := by
  rw [processResults]
  by_cases hnil : results.length = 0
  · have hres : results = [] := List.length_eq_zero.mp hnil
    subst hres
    simp [nonTrailingErrorReturns]
  · rw [if_neg hnil, resultLoop_ok results h]
    cases hnt : nonTrailingErrorReturns results with
    | nil => simp
    | cons a l => simp

/-- Claim C7 counterexample: a registrable function returning (error, int)
with a non-nil first error.  The call succeeds and reports the rendered error
text because only a final error return is excluded; the claim as stated
expects the first non-error return (the integer 5). -/
theorem C7_counterexample :
    CallRegisteredFunction cmErrFirst "weird" (.obj []) = .ok "函数返回: ERROR: boom" ∧
      ((errFirstFn.impl []).filter (fun r => !isErrorValue r)).head? = some (.vint 5) ∧
      ("函数返回: ERROR: boom" : String) ≠ "函数返回: " ++ ConvertReturnValueToString (.vint 5) :=
  ⟨rfl, rfl, by decide⟩

/-- Claim C7 (amended): a successful lookup and argument build invoke the
callable on the built vector, in which every parameter name absent from the
parsed arguments was replaced by the zero value of its formal type (an
all-missing argument object never fails); the reported string is
"函数返回: " + the first rendered return other than a trailing error-typed
value (an error-typed return in non-final position is rendered as text and
counts), or "函数执行完成" when no such return remains. -/
theorem C7_call_missing_zero_and_result (cm : ConversationManager) (name : String)
    (f : RegisteredFunction) (kvs : List (String × JVal)) (args : List GoValue)
    (hreg : cm.registeredFuncs.lookup name = some f)
    (hargs : buildArgs f.paramNames f.paramTypes kvs = .ok args) :
    CallRegisteredFunction cm name (.obj kvs) = processResults (f.impl args) ∧
    (∀ i (hi : i < f.paramNames.length) (ht : i < f.paramTypes.length) (ha : i < args.length),
        kvs.lookup (f.paramNames.get ⟨i, hi⟩) = none →
        args.get ⟨i, ha⟩ = zeroValue (f.paramTypes.get ⟨i, ht⟩)) ∧
    (∀ g : RegisteredFunction, g.paramNames.length = g.paramTypes.length →
        (∀ n ∈ g.paramNames, kvs.lookup n = none) →
        buildArgs g.paramNames g.paramTypes kvs = .ok (g.paramTypes.map zeroValue)) ∧
    (∀ results : List GoValue,
        (∀ r, results.getLast? = some r → errIsNonNil r = false) →
        processResults results =
          match nonTrailingErrorReturns results with
          | [] => Except.ok "函数执行完成"
          | r :: _ => Except.ok ("函数返回: " ++ ConvertReturnValueToString r)) := by
  refine ⟨?_, ?_, ?_, ?_⟩
  · rw [CallRegisteredFunction, hreg]
    simp only [parseParams]
    rw [hargs]
  · exact buildArgs_zero_at_missing f.paramNames f.paramTypes kvs args hargs
  · intro g hlen hmiss
    exact buildArgs_all_missing g.paramNames g.paramTypes kvs hlen hmiss
  · intro results hres
    exact processResults_spec results hres

/-- Witness for C7 (amended): calling AddNumber with only param0 present
builds [787, 0] (param1 zero-filled) and reports the sum path. -/
theorem C7_call_missing_zero_and_result_witness :
    buildArgs addFn.paramNames addFn.paramTypes [("param0", JVal.jnum 787)] =
        .ok [.vint 787, .vint 0] ∧
      CallRegisteredFunction cmAdd "AddNumber" (.obj [("param0", JVal.jnum 787)]) =
        processResults (addFn.impl [.vint 787, .vint 0]) :=
  ⟨rfl, (C7_call_missing_zero_and_result cmAdd "AddNumber" addFn
      [("param0", JVal.jnum 787)] [.vint 787, .vint 0] rfl rfl).1⟩

/-! ## Claims C1, C2, C6: the conversation driver -/

/-- The tool-call loop: the execution count is bounded by the remaining
budget plus the one terminal allowance, and a non-exiting success returns a
counter equal to the entry counter plus the executions, still within
budget. -/
theorem processToolCalls_bound (cm : ConversationManager) (dec : Option String → RawArgs) :
    ∀ (toolCalls : List ToolCall) (history : List Message) (count : Int),
      count ≤ cm.maxFunctionCallingNums →
      (((processToolCalls cm dec toolCalls history count).1 : Int)
          ≤ cm.maxFunctionCallingNums - count + 1) ∧
      (∀ h2 c2, (processToolCalls cm dec toolCalls history count).2 = .ok (h2, c2, false) →
        c2 = count + ((processToolCalls cm dec toolCalls history count).1 : Int) ∧
          c2 ≤ cm.maxFunctionCallingNums) := by
  intro toolCalls
  induction toolCalls with
  | nil =>
    intro history count hcount
    refine ⟨by simp [processToolCalls]; omega, ?_⟩
    intro h2 c2 hok
    rw [processToolCalls] at hok ⊢
    injection hok with hok
    injection hok with hok1 hok2
    injection hok2 with hok2 _
    simp
    omega
  | cons toolCall rest ih =>
    intro history count hcount
    rw [processToolCalls]
    simp only []
    by_cases hgt : count + 1 > cm.maxFunctionCallingNums
    · rw [if_pos hgt]
      cases hh : HandleToolCall cm dec history toolCall with
      | error e =>
        refine ⟨by simp; omega, ?_⟩
        intro h2 c2 hok
        simp at hok
      | ok history2 =>
        refine ⟨by simp; omega, ?_⟩
        intro h2 c2 hok
        simp at hok
    · rw [if_neg hgt]
      cases hh : HandleToolCall cm dec history toolCall with
      | error e =>
        refine ⟨by simp; omega, ?_⟩
        intro h2 c2 hok
        simp at hok
      | ok history2 =>
        have hc1 : count + 1 ≤ cm.maxFunctionCallingNums := by omega
        obtain ⟨ih1, ih2⟩ := ih history2 (count + 1) hc1
        refine ⟨?_, ?_⟩
        · simp only []
          push_cast
          omega
        · intro h2 c2 hok
          simp only [] at hok
          obtain ⟨hc2, hle⟩ := ih2 h2 c2 hok
          constructor
          · rw [hc2]; push_cast; ring
          · exact hle

/-- The outer loop returns one of the four stop reasons, with a non-nil
error exactly on the empty and "error" reasons, and executes at most the
remaining budget plus one tool call. -/
theorem chatLoop_spec (cm : ConversationManager) (dec : Option String → RawArgs) :
    ∀ (oracle : List (Option ChatResponse)) (history : List Message) (count : Int)
      (usage : Usage),
      ((chatLoop cm dec oracle history count usage).stopReason = "success" ∨
        (chatLoop cm dec oracle history count usage).stopReason = "max_function_calling_nums" ∨
        (chatLoop cm dec oracle history count usage).stopReason = "error" ∨
        (chatLoop cm dec oracle history count usage).stopReason = "") ∧
      ((chatLoop cm dec oracle history count usage).error ≠ none ↔
        ((chatLoop cm dec oracle history count usage).stopReason = "" ∨
          (chatLoop cm dec oracle history count usage).stopReason = "error")) ∧
      (count ≤ cm.maxFunctionCallingNums →
        ((chatLoop cm dec oracle history count usage).execCount : Int)
          ≤ cm.maxFunctionCallingNums - count + 1) := by
  intro oracle
  induction oracle with
  | nil =>
    intro history count usage
    refine ⟨by simp [chatLoop], by simp [chatLoop], by intro h; simp [chatLoop]; omega⟩
  | cons o rest ih =>
    intro history count usage
    cases o with
    | none =>
      refine ⟨by simp [chatLoop], by simp [chatLoop], by intro h; simp [chatLoop]; omega⟩
    | some resp =>
      rw [chatLoop]
      simp only []
      split
      next hch =>
        refine ⟨by simp, by simp, by intro h; simp; omega⟩
      next choice cs hch =>
        by_cases htc : choice.message.toolCalls.length = 0
        · rw [if_pos htc]
          refine ⟨by simp, by simp, by intro h; simp; omega⟩
        · rw [if_neg htc]
          split
          next n e heq =>
            refine ⟨by simp, by simp, ?_⟩
            intro hc
            have hb := (processToolCalls_bound cm dec choice.message.toolCalls
              (history ++ [choice.message]) count hc).1
            rw [heq] at hb
            simpa using hb
          next n history2 count2 shouldExit heq =>
            have hb := processToolCalls_bound cm dec choice.message.toolCalls
              (history ++ [choice.message]) count
            by_cases hex : shouldExit = true
            · subst hex
              rw [if_pos rfl]
              refine ⟨by simp, by simp, ?_⟩
              intro hc
              have := (hb hc).1
              rw [heq] at this
              simpa using this
            · rw [if_neg hex]
              have hex2 : shouldExit = false := by
                cases shouldExit
                · rfl
                · exact absurd rfl hex
              subst hex2
              obtain ⟨ihr, ihe, ihb⟩ := ih history2 count2
                { promptTokens := usage.promptTokens + resp.usage.promptTokens
                  completionTokens := usage.completionTokens + resp.usage.completionTokens
                  totalTokens := usage.totalTokens + resp.usage.totalTokens }
              refine ⟨by simpa using ihr, by simpa using ihe, ?_⟩
              intro hc
              obtain ⟨hn, hok⟩ := hb hc
              rw [heq] at hn hok
              obtain ⟨hc2eq, hc2le⟩ := hok history2 count2 rfl
              have hrec := ihb hc2le
              simp only []
              push_cast at hc2eq hn hrec ⊢
              omega

/-- The Chat result's stop reason, error and execution count are those of
the conversation loop started on the entry history. -/
theorem Chat_projections (cm : ConversationManager) (dec : Option String → RawArgs)
    (userMessage : String) (imageBase64s : List String)
    (oracle : List (Option ChatResponse)) (history0 : List Message) :
    (Chat cm dec userMessage imageBase64s oracle history0).stopReason =
        (chatLoop cm dec oracle (chatEntryHistory cm userMessage imageBase64s history0)
          0 {}).stopReason ∧
      (Chat cm dec userMessage imageBase64s oracle history0).error =
        (chatLoop cm dec oracle (chatEntryHistory cm userMessage imageBase64s history0)
          0 {}).error ∧
      (Chat cm dec userMessage imageBase64s oracle history0).execCount =
        (chatLoop cm dec oracle (chatEntryHistory cm userMessage imageBase64s history0)
          0 {}).execCount := by
  rw [Chat]
  split
  next e heq => exact ⟨rfl, heq.symm, rfl⟩
  next heq => exact ⟨rfl, heq.symm, rfl⟩

/-- Claim C1 counterexample: with truncation active, a Chat whose dispatcher
fails immediately leaves the truncated snapshot, not the pre-call
six-message transcript. -/
theorem C1_counterexample :
    (Chat cmSmall noDecode "" [] [] histSix).error ≠ none ∧
      (Chat cmSmall noDecode "" [] [] histSix).history ≠ histSix := by decide

/-- Claim C1 (amended): a Chat invocation returning a non-nil error leaves
the history equal to the truncation of the pre-call history (the snapshot
taken after the entry truncation); when the entry truncation is the
identity, this is the pre-call history itself. -/
theorem C1_failed_chat_restores_truncated (cm : ConversationManager)
    (dec : Option String → RawArgs) (userMessage : String) (imageBase64s : List String)
    (oracle : List (Option ChatResponse)) (history0 : List Message)
    (h : (Chat cm dec userMessage imageBase64s oracle history0).error ≠ none) :
    (Chat cm dec userMessage imageBase64s oracle history0).history =
      truncateHistory cm history0 := by
  revert h
  rw [Chat]
  split
  next e heq => intro _; rfl
  next heq => intro h; exact absurd rfl h

/-- Witness for C1 (amended): the immediately failing dispatcher run on the
six-message history ends with the truncated snapshot installed. -/
theorem C1_failed_chat_restores_truncated_witness :
    (Chat cmSmall noDecode "" [] [] histSix).error ≠ none ∧
      (Chat cmSmall noDecode "" [] [] histSix).history = truncateHistory cmSmall histSix :=
  ⟨by decide, C1_failed_chat_restores_truncated cmSmall noDecode "" [] [] histSix (by decide)⟩

/-- Claim C2 counterexample: with MaxFunctionCallingNums = -1 the very first
tool call is the excess call, so one execution occurs while the claimed
bound allows zero. -/
theorem C2_counterexample :
    ((Chat cmNeg decodeEmptyObj "add them" [] [some respToolCall] []).execCount : Int) >
        cmNeg.maxFunctionCallingNums + 1 ∧
      (Chat cmNeg decodeEmptyObj "add them" [] [some respToolCall] []).stopReason =
        "max_function_calling_nums" := by decide

/-- Claim C2 (amended): for every non-negative MaxFunctionCallingNums, the
number of tool executions performed during one Chat invocation is at most
MaxFunctionCallingNums + 1 (the excess call that triggers the terminal
"max_function_calling_nums" still executes). -/
theorem C2_tool_budget (cm : ConversationManager) (dec : Option String → RawArgs)
    (userMessage : String) (imageBase64s : List String)
    (oracle : List (Option ChatResponse)) (history0 : List Message)
    (hmax : 0 ≤ cm.maxFunctionCallingNums) :
    ((Chat cm dec userMessage imageBase64s oracle history0).execCount : Int)
      ≤ cm.maxFunctionCallingNums + 1 := by
  have hproj := (Chat_projections cm dec userMessage imageBase64s oracle history0).2.2
  rw [hproj]
  have hb := (chatLoop_spec cm dec oracle
    (chatEntryHistory cm userMessage imageBase64s history0) 0 {}).2.2 hmax
  omega

/-- Witness for C2 (amended): a budget-one run that receives two tool-call
rounds executes two calls, within the bound of two. -/
theorem C2_tool_budget_witness :
    (0 : Int) ≤ cmBudgetOne.maxFunctionCallingNums ∧
      (Chat cmBudgetOne decodeEmptyObj "add them" []
          [some respToolCall, some respToolCall, some respDone] []).execCount = 2 ∧
      ((Chat cmBudgetOne decodeEmptyObj "add them" []
          [some respToolCall, some respToolCall, some respDone] []).execCount : Int)
        ≤ cmBudgetOne.maxFunctionCallingNums + 1 :=
  ⟨by decide, by decide,
    C2_tool_budget cmBudgetOne decodeEmptyObj "add them" []
      [some respToolCall, some respToolCall, some respDone] [] (by decide)⟩

/-- Claim C6 counterexample: a dispatcher failure returns the empty finish
reason, not "error", alongside the non-nil error. -/
theorem C6_counterexample :
    (Chat cmDefault noDecode "hello" [] [none] []).error ≠ none ∧
      (Chat cmDefault noDecode "hello" [] [none] []).stopReason = "" ∧
      (Chat cmDefault noDecode "hello" [] [none] []).stopReason ≠ "success" ∧
      (Chat cmDefault noDecode "hello" [] [none] []).stopReason ≠ "max_function_calling_nums" ∧
      (Chat cmDefault noDecode "hello" [] [none] []).stopReason ≠ "error" := by decide

/-- Claim C6 (amended): every Chat invocation returns one of the finish
reasons "success", "max_function_calling_nums", "error" or "" (the empty
reason accompanies a dispatcher failure), and the returned error is non-nil
exactly when the finish reason is "" or "error". -/
theorem C6_finish_reasons (cm : ConversationManager) (dec : Option String → RawArgs)
    (userMessage : String) (imageBase64s : List String)
    (oracle : List (Option ChatResponse)) (history0 : List Message) :
    ((Chat cm dec userMessage imageBase64s oracle history0).stopReason = "success" ∨
      (Chat cm dec userMessage imageBase64s oracle history0).stopReason =
        "max_function_calling_nums" ∨
      (Chat cm dec userMessage imageBase64s oracle history0).stopReason = "error" ∨
      (Chat cm dec userMessage imageBase64s oracle history0).stopReason = "") ∧
    ((Chat cm dec userMessage imageBase64s oracle history0).error ≠ none ↔
      ((Chat cm dec userMessage imageBase64s oracle history0).stopReason = "" ∨
        (Chat cm dec userMessage imageBase64s oracle history0).stopReason = "error")) := by
  obtain ⟨hs, he, -⟩ := Chat_projections cm dec userMessage imageBase64s oracle history0
  obtain ⟨hr, hiff, -⟩ := chatLoop_spec cm dec oracle
    (chatEntryHistory cm userMessage imageBase64s history0) 0 {}
  rw [hs, he]
  exact ⟨hr, hiff⟩

/-! ## Claim C8 -/

/-- Every byte emitted for one digest word is below 256. -/
theorem wordBytes_lt (w : Nat) : ∀ b ∈ wordBytes w, b < 256 := by
  intro b hb
  simp [wordBytes] at hb
  rcases hb with rfl | rfl | rfl | rfl <;> omega

/-- The digest always has 32 bytes. -/
theorem sha256_length (msg : List Nat) : (sha256 msg).length = 32 := rfl

/-- Every digest byte is below 256. -/
theorem sha256_bytes_lt (msg : List Nat) : ∀ b ∈ sha256 msg, b < 256 := by
  intro b hb
  rw [sha256] at hb
  simp only [List.mem_flatten, List.mem_map] at hb
  obtain ⟨l, ⟨w, hw, rfl⟩, hbl⟩ := hb
  exact wordBytes_lt w b hbl

/-- Hex digits of nibbles are in the class [0-9a-f]. -/
theorem hexDigit_hex : ∀ n < 16, isHexDigitChar (hexDigit n) = true := by decide

/-- Hex digits of nibbles are ASCII. -/
theorem hexDigit_ascii : ∀ n < 16, (hexDigit n).toNat < 128 := by decide

/-- The hex encoding spells two characters per byte. -/
theorem hexEncode_data_length (bytes : List Nat) :
    (hexEncode bytes).data.length = 2 * bytes.length := by
  induction bytes with
  | nil => rfl
  | cons b rest ih =>
    show (List.flatten _).length = _
    simp only [List.map_cons, List.flatten_cons, List.length_append]
    rw [show (List.flatten (rest.map fun b => [hexDigit (b / 16), hexDigit (b % 16)])).length
        = (hexEncode rest).data.length from rfl, ih]
    simp
    ring

/-- Characters of the hex encoding of genuine bytes are hex digits. -/
theorem hexEncode_chars_hex (bytes : List Nat) (hlt : ∀ b ∈ bytes, b < 256) :
    ∀ c ∈ (hexEncode bytes).data, isHexDigitChar c = true := by
  intro c hc
  have hc2 : c ∈ (bytes.map (fun b => [hexDigit (b / 16), hexDigit (b % 16)])).flatten := hc
  simp only [List.mem_flatten, List.mem_map] at hc2
  obtain ⟨l, ⟨b, hb, rfl⟩, hcl⟩ := hc2
  have hb256 := hlt b hb
  simp at hcl
  rcases hcl with rfl | rfl
  · exact hexDigit_hex (b / 16) (by omega)
  · exact hexDigit_hex (b % 16) (by omega)

/-- Characters of the hex encoding of genuine bytes are ASCII. -/
theorem hexEncode_chars_ascii (bytes : List Nat) (hlt : ∀ b ∈ bytes, b < 256) :
    ∀ c ∈ (hexEncode bytes).data, c.toNat < 128 := by
  intro c hc
  have hc2 : c ∈ (bytes.map (fun b => [hexDigit (b / 16), hexDigit (b % 16)])).flatten := hc
  simp only [List.mem_flatten, List.mem_map] at hc2
  obtain ⟨l, ⟨b, hb, rfl⟩, hcl⟩ := hc2
  have hb256 := hlt b hb
  simp at hcl
  rcases hcl with rfl | rfl
  · exact hexDigit_ascii (b / 16) (by omega)
  · exact hexDigit_ascii (b % 16) (by omega)

/-- ASCII characters encode to one UTF-8 byte each. -/
theorem utf8_ascii_length (l : List Char) (h : ∀ c ∈ l, c.toNat < 128) :
    ((l.map utf8EncodeChar).flatten).length = l.length := by
  induction l with
  | nil => rfl
  | cons c rest ih =>
    simp only [List.map_cons, List.flatten_cons, List.length_append, List.length_cons]
    rw [ih (fun x hx => h x (List.mem_cons_of_mem c hx))]
    have hc := h c (List.mem_cons_self c rest)
    simp [utf8EncodeChar, hc]
    omega

/-- Go len agrees with the character count on ASCII strings. -/
theorem goLen_ascii (s : String) (h : ∀ c ∈ s.data, c.toNat < 128) : goLen s = s.length := by
  rw [goLen, utf8Bytes]
  exact utf8_ascii_length s.data h

/-- Claim C8: ids of at most 40 bytes are emitted unchanged; longer ids are
replaced by the deterministic "call_" + first 32 hex characters of their
SHA-256, a 37-character (and 37-byte) id matching the class
call_ then 32 lowercase hex digits. -/
theorem C8_truncateToolCallID (x : String) :
    (goLen x ≤ 40 → truncateToolCallID x = x) ∧
    (40 < goLen x →
      truncateToolCallID x =
          "call_" ++ String.mk ((hexEncode (sha256 (utf8Bytes x))).data.take 32) ∧
        (truncateToolCallID x).length = 37 ∧
        goLen (truncateToolCallID x) = 37 ∧
        isCallHexId (truncateToolCallID x) = true) := by
  have h64 : (hexEncode (sha256 (utf8Bytes x))).data.length = 64 := by
    rw [hexEncode_data_length, sha256_length]
  have htake : ((hexEncode (sha256 (utf8Bytes x))).data.take 32).length = 32 := by
    rw [List.length_take, h64]
    omega
  have htakemem : ∀ c ∈ (hexEncode (sha256 (utf8Bytes x))).data.take 32,
      c ∈ (hexEncode (sha256 (utf8Bytes x))).data :=
    fun c hc => List.mem_of_mem_take hc
  constructor
  · intro hle
    rw [truncateToolCallID, if_pos hle]
  · intro hgt
    have heq : truncateToolCallID x =
        "call_" ++ String.mk ((hexEncode (sha256 (utf8Bytes x))).data.take 32) := by
      rw [truncateToolCallID, if_neg (by omega)]
    have hdata : (truncateToolCallID x).data =
        "call_".data ++ (hexEncode (sha256 (utf8Bytes x))).data.take 32 := by
      rw [heq]
      exact String.data_append _ _
    have hlen : (truncateToolCallID x).length = 37 := by
      have : (truncateToolCallID x).length = (truncateToolCallID x).data.length := rfl
      rw [this, hdata]
      simp [htake]
    refine ⟨heq, hlen, ?_, ?_⟩
    · rw [goLen_ascii _ ?hascii]
      · exact hlen
      case hascii =>
        intro c hc
        rw [hdata] at hc
        rcases List.mem_append.mp hc with hc | hc
        · have hcall : ∀ d ∈ ("call_".data : List Char), d.toNat < 128 := by decide
          exact hcall c hc
        · exact hexEncode_chars_ascii _ (sha256_bytes_lt _) c (htakemem c hc)
    · rw [isCallHexId, hdata]
      have hpre : ("call_".data).isPrefixOf
          ("call_".data ++ (hexEncode (sha256 (utf8Bytes x))).data.take 32) = true := by
        rw [List.isPrefixOf_iff_prefix]
        exact List.prefix_append _ _
      have hdrop : ("call_".data ++ (hexEncode (sha256 (utf8Bytes x))).data.take 32).drop 5 =
          (hexEncode (sha256 (utf8Bytes x))).data.take 32 := by
        have h5 : ("call_".data).length = 5 := rfl
        rw [← h5]
        exact List.drop_left _ _
      rw [hpre, hdrop, htake]
      simp only [Bool.true_and, beq_self_eq_true]
      rw [List.all_eq_true]
      intro c hc
      exact hexEncode_chars_hex _ (sha256_bytes_lt _) c (htakemem c hc)

/-- Witness for C8: a 41-byte id is shortened to a 37-character call_ hex
id, while a 40-byte id passes through. -/
theorem C8_truncateToolCallID_witness :
    goLen (String.mk (List.replicate 40 'x')) ≤ 40 ∧
      truncateToolCallID (String.mk (List.replicate 40 'x')) =
        String.mk (List.replicate 40 'x') ∧
      40 < goLen (String.mk (List.replicate 41 'x')) ∧
      isCallHexId (truncateToolCallID (String.mk (List.replicate 41 'x'))) = true :=
  ⟨by decide, (C8_truncateToolCallID (String.mk (List.replicate 40 'x'))).1 (by decide),
    by decide, ((C8_truncateToolCallID (String.mk (List.replicate 41 'x'))).2 (by decide)).2.2.2⟩

/-! ## Claim C10 -/

/-- The converter copies the canonical model name unchanged. -/
theorem ToOpenAIRequest_model (req : ChatRequest) :
    (ToOpenAIRequest req).model = req.model := by
  simp only [ToOpenAIRequest]
  split_ifs <;> rfl

/-- The token-field routing of the initial conversion. -/
theorem ToOpenAIRequest_token_fields (req : ChatRequest) (hmt : req.maxTokens > 0) :
    ((containsSub req.model "gpt-5" = true ∨ containsSub req.model "o1" = true ∨
        containsSub req.model "gpt-4o-realtime" = true) →
      (ToOpenAIRequest req).maxCompletionTokens = some req.maxTokens ∧
        (ToOpenAIRequest req).maxTokens = none) ∧
    (¬ (containsSub req.model "gpt-5" = true ∨ containsSub req.model "o1" = true ∨
        containsSub req.model "gpt-4o-realtime" = true) →
      (ToOpenAIRequest req).maxTokens = some req.maxTokens ∧
        (ToOpenAIRequest req).maxCompletionTokens = none) := by
  constructor <;> intro h <;>
    · simp only [ToOpenAIRequest]
      split_ifs <;> simp_all

/-- The temperature suppression of the initial conversion. -/
theorem ToOpenAIRequest_temperature (req : ChatRequest)
    (h : containsSub req.model "gpt-5" = true ∨ containsSub req.model "o1" = true) :
    (ToOpenAIRequest req).temperature = none := by
  simp only [ToOpenAIRequest]
  split_ifs <;> simp_all

/-- Claim C10: with max_tokens positive, the initial conversion emits
max_completion_tokens (and omits max_tokens) exactly for the gpt-5 / o1 /
gpt-4o-realtime model families and max_tokens otherwise; gpt-5 and o1 lose
the temperature; and after the client substitutes the default model for an
empty model name the same routing and suppression hold for the default
model's family. -/
theorem C10_openai_model_family_rules (req : ChatRequest) (defaultModel : String)
    (hmt : req.maxTokens > 0) :
    (((ToOpenAIRequest req).maxCompletionTokens = some req.maxTokens ∧
        (ToOpenAIRequest req).maxTokens = none) ↔
      (containsSub req.model "gpt-5" = true ∨ containsSub req.model "o1" = true ∨
        containsSub req.model "gpt-4o-realtime" = true)) ∧
    (¬ (containsSub req.model "gpt-5" = true ∨ containsSub req.model "o1" = true ∨
        containsSub req.model "gpt-4o-realtime" = true) →
      (ToOpenAIRequest req).maxTokens = some req.maxTokens ∧
        (ToOpenAIRequest req).maxCompletionTokens = none) ∧
    ((containsSub req.model "gpt-5" = true ∨ containsSub req.model "o1" = true) →
      (ToOpenAIRequest req).temperature = none) ∧
    (req.model = "" →
      (((applyDefaultModel defaultModel (ToOpenAIRequest req)).maxCompletionTokens =
            some req.maxTokens ∧
          (applyDefaultModel defaultModel (ToOpenAIRequest req)).maxTokens = none) ↔
        (containsSub defaultModel "gpt-5" = true ∨ containsSub defaultModel "o1" = true ∨
          containsSub defaultModel "gpt-4o-realtime" = true)) ∧
      ((containsSub defaultModel "gpt-5" = true ∨ containsSub defaultModel "o1" = true) →
        (applyDefaultModel defaultModel (ToOpenAIRequest req)).temperature = none)) := by
  obtain ⟨hpos, hneg⟩ := ToOpenAIRequest_token_fields req hmt
  refine ⟨?_, ⟨hneg, ToOpenAIRequest_temperature req, ?_⟩⟩
  · constructor
    · intro ⟨hmc, hmtk⟩
      by_contra hfam
      obtain ⟨_, hmc2⟩ := hneg hfam
      rw [hmc] at hmc2
      exact absurd hmc2 (by simp)
    · exact hpos
  · intro hm
    have hf1 : containsSub req.model "gpt-5" = false := by rw [hm]; rfl
    have hf2 : containsSub req.model "o1" = false := by rw [hm]; rfl
    have hf3 : containsSub req.model "gpt-4o-realtime" = false := by rw [hm]; rfl
    obtain ⟨hmtk, hmc⟩ := hneg (by simp [hf1, hf2, hf3])
    have hmodel : (ToOpenAIRequest req).model = "" := by rw [ToOpenAIRequest_model, hm]
    by_cases h1 : containsSub defaultModel "gpt-5" = true <;>
      by_cases h2 : containsSub defaultModel "o1" = true <;>
        by_cases h3 : containsSub defaultModel "gpt-4o-realtime" = true <;>
          simp [applyDefaultModel, hmodel, hmtk, hmc, h1, h2, h3, hmt]

/-- A user message carrying a single image part and no text. -/
def msgImgOnly : Message :=
  { role := "user"
    content := [{ type := "image_url", imageURL := some { url := "u", detail := "high" } }] }

/-- A request with a system prompt whose only user message is image-only. -/
def reqImgOnly : ChatRequest := { systemPrompt := "S", messages := [msgImgOnly] }

/-- A request with a system prompt and one plain text user message. -/
def reqDsHi : ChatRequest := { systemPrompt := "S", messages := [msgUserHi] }

/-- A gpt-5 request with a positive token budget. -/
def reqGpt5 : ChatRequest := { model := "gpt-5-turbo", maxTokens := 100, temperature := 1/2 }

/-- A model-less request with a positive token budget. -/
def reqNoModel : ChatRequest := { model := "", maxTokens := 100, temperature := 1/2 }

/-- Witness for C10: a gpt-5 model routes to max_completion_tokens without
temperature, and an empty model re-applies the rules at the default o1-mini. -/
theorem C10_openai_model_family_rules_witness :
    (ToOpenAIRequest reqGpt5).maxCompletionTokens = some 100 ∧
      (applyDefaultModel "o1-mini" (ToOpenAIRequest reqNoModel)).maxCompletionTokens =
        some 100 := by
  have h1 := (C10_openai_model_family_rules reqGpt5 "o1-mini"
    (by decide)).1.mpr (by decide)
  have h2 := ((C10_openai_model_family_rules reqNoModel "o1-mini"
    (by decide)).2.2.2 rfl).1.mpr (by decide)
  exact ⟨h1.1, h2.1⟩

/-! ## Claim C9 -/

/-- Every message one conversion step emits has role "tool" (a tool-result
side message) or the role of the source message. -/
theorem ds_step_roles (P : String) (flag : Bool) (msg : Message) :
    ∀ m2 ∈ (deepseekConvertStep P flag msg).1, m2.role = "tool" ∨ m2.role = msg.role := by
  intro m2 hm2
  rw [deepseekConvertStep] at hm2
  simp only [] at hm2
  rcases List.mem_append.mp hm2 with h | h
  · left
    rw [dsToolResultMessages] at h
    simp only [List.mem_filterMap] at h
    obtain ⟨c, _, hc⟩ := h
    split at hc
    · injection hc with hc
      rw [← hc]
    · exact absurd hc (by simp)
  · right
    split at h
    · simp at h
    · simp at h
      rw [h]

/-- A non-user message leaves the first-user flag unchanged. -/
theorem ds_step_flag_nonuser (P : String) (flag : Bool) (msg : Message)
    (h : msg.role ≠ "user") : (deepseekConvertStep P flag msg).2 = flag := by
  simp only [deepseekConvertStep]
  split_ifs <;> simp_all

/-- The conversion introduces no system-role message. -/
theorem ds_loop_no_system (P : String) :
    ∀ (msgs : List Message) (flag : Bool), (∀ m ∈ msgs, m.role ≠ "system") →
      ∀ m2 ∈ deepseekMessagesLoop P msgs flag, m2.role ≠ "system" := by
  intro msgs
  induction msgs with
  | nil => intro flag _ m2 hm2; simp [deepseekMessagesLoop] at hm2
  | cons msg rest ih =>
    intro flag hroles m2 hm2
    rw [deepseekMessagesLoop] at hm2
    rcases List.mem_append.mp hm2 with h | h
    · rcases ds_step_roles P flag msg m2 h with h2 | h2
      · rw [h2]; decide
      · rw [h2]; exact hroles msg (List.mem_cons_self msg rest)
    · exact ih _ (fun m hm => hroles m (List.mem_cons_of_mem msg hm)) m2 h

/-- A message with a non-empty text part is not a pure tool-result carrier,
so the conversion step emits its main message, and under an armed first-user
flag a user message absorbs the system prompt at the head of its content. -/
theorem ds_step_first_user (P : String) (hP : P ≠ "") (msg : Message)
    (huser : msg.role = "user") (htext : dsTextParts msg ≠ []) :
    ∃ mainMsg : DeepSeekMessage,
      (deepseekConvertStep P true msg).1 =
          dsToolResultMessages msg ++ [mainMsg] ∧
        mainMsg.role = "user" ∧
        dsLeadText mainMsg.content =
          P ++ "\n\n" ++ String.intercalate " " (dsTextParts msg) := by
  have hlen : (dsTextParts msg).length > 0 := List.length_pos.mpr htext
  have hmerge : (true : Bool) = true ∧ msg.role = "user" ∧ P ≠ "" := ⟨rfl, huser, hP⟩
  have hother : msg.content.any (fun content => content.type ≠ "tool_result") = true := by
    obtain ⟨t, ht⟩ := List.exists_mem_of_ne_nil _ htext
    rw [dsTextParts] at ht
    simp only [List.mem_filterMap] at ht
    obtain ⟨c, hcmem, hc⟩ := ht
    rw [List.any_eq_true]
    refine ⟨c, hcmem, ?_⟩
    split at hc
    · next hcond => simp [hcond.1]
    · exact absurd hc (by simp)
  have hskip : ¬ (msg.content.any (fun content =>
      content.type = "tool_result" ∧ content.text ≠ "" ∧ content.toolID ≠ "") = true ∧
      msg.content.any (fun content => content.type ≠ "tool_result") = false ∧
      msg.toolCalls = []) := by
    intro ⟨_, hcontra, _⟩
    rw [hother] at hcontra
    exact absurd hcontra (by simp)
  rw [deepseekConvertStep]
  simp only []
  rw [if_neg hskip]
  by_cases himg : (dsImageContents msg).length > 0
  · refine ⟨_, rfl, huser, ?_⟩
    simp only [if_pos himg, if_pos hlen]
    rw [if_pos (show True ∧ msg.role = "user" ∧ P ≠ "" from ⟨trivial, huser, hP⟩)]
    rfl
  · refine ⟨_, rfl, huser, ?_⟩
    simp only [if_neg himg, if_pos hlen]
    rw [if_pos (show True ∧ msg.role = "user" ∧ P ≠ "" from ⟨trivial, huser, hP⟩)]
    rfl

/-- Tool-result side messages never carry the user role. -/
theorem dsToolResultMessages_roles (msg : Message) :
    ∀ m2 ∈ dsToolResultMessages msg, m2.role = "tool" := by
  intro m2 hm2
  rw [dsToolResultMessages] at hm2
  simp only [List.mem_filterMap] at hm2
  obtain ⟨c, _, hc⟩ := hm2
  split at hc
  · injection hc with hc
    rw [← hc]
  · exact absurd hc (by simp)

/-- The first user-role message of the converted list, when the canonical
list opens with non-user messages followed by a user message with text, is
that user message's conversion, and its content leads with the system
prompt, a blank line, and the joined original text. -/
theorem ds_loop_first_user (P : String) (hP : P ≠ "") :
    ∀ (pre : List Message) (msg : Message) (post : List Message),
      (∀ m ∈ pre, m.role ≠ "user") → msg.role = "user" → dsTextParts msg ≠ [] →
      ∃ firstUser,
        ((deepseekMessagesLoop P (pre ++ msg :: post) true).filter
            (fun m => m.role == "user")).head? = some firstUser ∧
          dsLeadText firstUser.content =
            P ++ "\n\n" ++ String.intercalate " " (dsTextParts msg) := by
  intro pre
  induction pre with
  | nil =>
    intro msg post _ huser htext
    obtain ⟨mainMsg, hstep, hrole, hlead⟩ := ds_step_first_user P hP msg huser htext
    refine ⟨mainMsg, ?_, hlead⟩
    rw [List.nil_append, deepseekMessagesLoop]
    rw [List.filter_append, hstep, List.filter_append]
    have htools : (dsToolResultMessages msg).filter (fun m => m.role == "user") = [] := by
      rw [List.filter_eq_nil_iff]
      intro m hm
      rw [dsToolResultMessages_roles msg m hm]
      decide
    have hmain : ([mainMsg] : List DeepSeekMessage).filter (fun m => m.role == "user") =
        [mainMsg] := by
      simp [List.filter, hrole]
    rw [htools, hmain]
    simp
  | cons m pre ih =>
    intro msg post hpre huser htext
    have hm : m.role ≠ "user" := hpre m (List.mem_cons_self m pre)
    obtain ⟨firstUser, hhead, hlead⟩ :=
      ih msg post (fun x hx => hpre x (List.mem_cons_of_mem m hx)) huser htext
    refine ⟨firstUser, ?_, hlead⟩
    rw [List.cons_append, deepseekMessagesLoop]
    rw [ds_step_flag_nonuser P true m hm]
    rw [List.filter_append]
    have hstep : (deepseekConvertStep P true m).1.filter (fun x => x.role == "user") = [] := by
      rw [List.filter_eq_nil_iff]
      intro x hx
      rcases ds_step_roles P true m x hx with h2 | h2 <;> rw [h2]
      · decide
      · simp [hm]
    rw [hstep, List.nil_append]
    exact hhead

/-- Claim C9 counterexample: with a non-empty system prompt and an image-only
first user message, the emitted request contains a single user message whose
content does not begin with the system prompt (the prompt is dropped
entirely). -/
theorem C9_counterexample :
    reqImgOnly.systemPrompt = "S" ∧
      (ToDeepSeekRequest reqImgOnly).messages.map (fun m => m.role) = ["user"] ∧
      ∀ m ∈ (ToDeepSeekRequest reqImgOnly).messages,
        subListAt (dsLeadText m.content).data "S\n\n".data = false := by
  decide

/-- Claim C9 (amended): for a canonical request with a non-empty system
prompt, no system-role message, and whose first user-role message carries a
non-empty text part, the DeepSeek conversion emits no system-role message,
and the first user-role message of the emitted request has content beginning
with the system prompt, a blank line, and that message's original text. -/
theorem C9_deepseek_system_prompt_merge (req : ChatRequest)
    (pre post : List Message) (msg : Message)
    (hsplit : req.messages = pre ++ msg :: post)
    (hsp : req.systemPrompt ≠ "")
    (hnosys : ∀ m ∈ req.messages, m.role ≠ "system")
    (hpre : ∀ m ∈ pre, m.role ≠ "user")
    (huser : msg.role = "user")
    (htext : dsTextParts msg ≠ []) :
    (∀ m2 ∈ (ToDeepSeekRequest req).messages, m2.role ≠ "system") ∧
      ∃ firstUser,
        (((ToDeepSeekRequest req).messages).filter (fun m => m.role == "user")).head? =
            some firstUser ∧
          dsLeadText firstUser.content =
            req.systemPrompt ++ "\n\n" ++ String.intercalate " " (dsTextParts msg) := by
  have hmsgs : (ToDeepSeekRequest req).messages =
      deepseekMessagesLoop req.systemPrompt req.messages true := by
    rw [ToDeepSeekRequest]
    simp only [if_pos hsp]
  rw [hmsgs, hsplit]
  constructor
  · exact ds_loop_no_system req.systemPrompt (pre ++ msg :: post) true
      (hsplit ▸ hnosys)
  · exact ds_loop_first_user req.systemPrompt hsp pre msg post hpre huser htext

/-- Witness for C9 (amended): the one-message request with prompt "S" and
user text "hi" arms the merge, whose emitted first user content is
"S\n\nhi". -/
theorem C9_deepseek_system_prompt_merge_witness :
    ∃ firstUser,
      (((ToDeepSeekRequest reqDsHi).messages).filter (fun m => m.role == "user")).head? =
          some firstUser ∧
        dsLeadText firstUser.content = "S\n\nhi" := by
  obtain ⟨-, firstUser, hhead, hlead⟩ :=
    C9_deepseek_system_prompt_merge reqDsHi [] [] msgUserHi rfl (by decide) (by decide)
      (by simp) (by decide) (by decide)
  refine ⟨firstUser, hhead, ?_⟩
  rw [hlead]
  decide

end GoAgent
